import Mathlib

/-!
TN-Manage: a shallow embedding of the TrueNAS client and its commands.

The Go sources embedded here are `pkg/truenas/client.go`, `cmd/config.go`,
`cmd/list.go`, `cmd/add.go`, `cmd/remove.go` and `cmd/clear.go`.

Modelling conventions.

* A Go `string` is modelled by the list of its characters (`GoString`).  Every
  string the embedded code inspects is either compared whole, concatenated,
  walked rune by rune (`range`), or sliced at an offset that is the length of
  another string of the same program, so the character list is the data the
  code acts on.
* A Go `error` is modelled by its message; `nil` is `none`.  `fmt.Errorf` with
  `%w` yields the format text with the wrapped error's message substituted.
* The network is a value of type `HTTP`: the outcome of `http.NewRequest` and
  of `httpClient.Do` followed by `io.ReadAll`.  The answer to a request may
  depend on every request sent before it.  Operations thread the list of the
  requests handed to `httpClient.Do` so far (oldest first).
* Functions of the Go standard library that the code calls but that are not
  part of the repository (`json.Unmarshal`, `url.PathEscape`,
  `strings.ToLower`, `strings.TrimSpace`) are parameters.
-/

namespace TNManage

/-- A Go string, as the list of its characters. -/
abbrev GoString := List Char

deriving instance DecidableEq for Except

/-- A value stored under `interface{}`: what the client puts in request maps and
what `encoding/json` leaves in the maps of a decoded `Dataset`. -/
inductive Value where
  | null
  | bool (b : Bool)
  | int64 (i : Int)
  | float64 (q : Rat)
  | string (s : GoString)
  | composite (raw : GoString)
  deriving DecidableEq, Repr

/-- A Go map with string keys: association list with pairwise distinct keys. -/
abbrev GoMap (α : Type) := List (GoString × α)

/-- Map lookup `m[k]` with the comma-ok result. -/
def GoMap.get {α : Type} (m : GoMap α) (k : GoString) : Option α :=
  match m with
  | [] => none
  | (k', v) :: rest => if k' = k then some v else GoMap.get rest k

/-- Map assignment `m[k] = v`. -/
def GoMap.set {α : Type} (m : GoMap α) (k : GoString) (v : α) : GoMap α :=
  match m with
  | [] => [(k, v)]
  | (k', v') :: rest => if k' = k then (k, v) :: rest else (k', v') :: GoMap.set rest k v

/-- A Go `map[string]interface{}`. -/
abbrev Payload := GoMap Value

/-- The struct `Client` of client.go (lines 15-19); the `httpClient` field is the
network, passed separately as an `HTTP`. -/
structure Client where
  baseURL : GoString
  apiKey : GoString
  deriving DecidableEq, Repr

/-- The struct `Dataset` of client.go (lines 33-43).  The Go field `Type` is
named `Type_` here, `Type` being a reserved word. -/
structure Dataset where
  ID : GoString
  Name : GoString
  Pool : GoString
  Type_ : GoString
  Used : Option Payload
  Available : Option Payload
  Mountpoint : GoString
  Compression : Option Payload
  Deduplication : Option Payload
  deriving DecidableEq, Repr

/-- An HTTP request as `doRequest` builds it: method, URL, the two headers it
sets, and the value handed to `json.Marshal` as body (`none` for a nil body). -/
structure Request where
  method : GoString
  url : GoString
  authorization : GoString
  contentType : GoString
  body : Option Payload
  deriving DecidableEq, Repr

/-- What `httpClient.Do` followed by `io.ReadAll` gives for one request. -/
inductive RoundTrip where
  | doError (msg : GoString)
  | readError (msg : GoString)
  | response (statusCode : Int) (body : GoString)
  deriving DecidableEq, Repr

/-- The HTTP client with the network behind it, as `doRequest` uses it.
`newRequest method url` is the error of `http.NewRequest`, if any;
`roundTrip sent req` is what `httpClient.Do` followed by `io.ReadAll` gives for
`req` after the requests `sent` were handed to the client.  The redirects the
client follows on the way are part of that one call; `clientDo` spells them out
over a transport. -/
structure HTTP where
  newRequest : GoString → GoString → Option GoString
  roundTrip : List Request → Request → RoundTrip

/-- The request `doRequest` hands to `httpClient.Do` (client.go lines 98-105). -/
def mkRequest (c : Client) (method endpoint : GoString) (body : Option Payload) : Request :=
  { method := method
    url := c.baseURL ++ "/api/v2.0".toList ++ endpoint
    authorization := "Bearer ".toList ++ c.apiKey
    contentType := "application/json".toList
    body := body }

/-- The method `Client.doRequest` of client.go (lines 88-123).  The bodies this
client marshals are maps of strings, booleans and 64-bit integers, for which
`json.Marshal` cannot fail, so the branch of lines 92-94 is not taken.  With
the outcome it returns the requests handed to `httpClient.Do` so far. -/
def doRequest (h : HTTP) (c : Client) (sent : List Request) (method endpoint : GoString)
    (body : Option Payload) : Except GoString GoString × List Request :=
  let url := c.baseURL ++ "/api/v2.0".toList ++ endpoint
  match h.newRequest method url with
  | some err => (.error ("failed to create request: ".toList ++ err), sent)
  | none =>
    let req := mkRequest c method endpoint body
    match h.roundTrip sent req with
    | .doError err => (.error ("failed to execute request: ".toList ++ err), sent ++ [req])
    | .readError err => (.error ("failed to read response body: ".toList ++ err), sent ++ [req])
    | .response statusCode respBody =>
      if statusCode < 200 ∨ statusCode ≥ 300 then
        (.error ("API request failed with status ".toList ++ (toString statusCode).toList
          ++ ": ".toList ++ respBody), sent ++ [req])
      else
        (.ok respBody, sent ++ [req])

/-- One pass of the loop body of `ListDatasets` (client.go lines 174-181). -/
def listStep (poolName : GoString) (datasets : List Dataset) (ds : Dataset) : List Dataset :=
  if ds.Pool = poolName ∨ ds.ID = poolName then
    datasets ++ [ds]
  else if poolName ≠ [] ∧ ds.ID.length > poolName.length
      ∧ ds.ID.take (poolName.length + 1) = poolName ++ "/".toList then
    datasets ++ [ds]
  else
    datasets

/-- The method `Client.ListDatasets` of client.go (lines 161-184);
`unmarshalList` is `json.Unmarshal` into `[]Dataset`. -/
def ListDatasets (h : HTTP) (unmarshalList : GoString → Except GoString (List Dataset))
    (c : Client) (sent : List Request) (poolName : GoString) :
    Except GoString (List Dataset) × List Request :=
  match doRequest h c sent "GET".toList "/pool/dataset".toList none with
  | (.error err, sent1) => (.error err, sent1)
  | (.ok respBody, sent1) =>
    match unmarshalList respBody with
    | .error err => (.error ("failed to unmarshal response: ".toList ++ err), sent1)
    | .ok allDatasets => (.ok (allDatasets.foldl (listStep poolName) []), sent1)

/-- Two's-complement wrap of an integer into the range of `int64`. -/
def wrapInt64 (x : Int) : Int := (x + 2 ^ 63) % 2 ^ 64 - 2 ^ 63

/-- Multiplication of two `int64` values as Go performs it. -/
def mulInt64 (a b : Int) : Int := wrapInt64 (a * b)

/-- The map `CreateDataset` builds before posting (client.go lines 187-198).
`quotaGB` is a Go `int`, 64 bits wide, so `int64(quotaGB)` is the same number. -/
def createDatasetPayload (poolName datasetName : GoString) (quotaGB : Int) : Payload :=
  let fullName := poolName ++ "/".toList ++ datasetName
  let payload : Payload :=
    [("name".toList, .string fullName), ("type".toList, .string "FILESYSTEM".toList)]
  if quotaGB > 0 then
    let quotaBytes := mulInt64 (mulInt64 (mulInt64 quotaGB 1024) 1024) 1024
    payload.set "refquota".toList (.int64 quotaBytes)
  else
    payload

/-- The method `Client.CreateDataset` of client.go (lines 186-211);
`unmarshal` is `json.Unmarshal` into a `Dataset`. -/
def CreateDataset (h : HTTP) (unmarshal : GoString → Except GoString Dataset)
    (c : Client) (sent : List Request) (poolName datasetName : GoString) (quotaGB : Int) :
    Except GoString GoString × List Request :=
  let payload := createDatasetPayload poolName datasetName quotaGB
  match doRequest h c sent "POST".toList "/pool/dataset".toList (some payload) with
  | (.error err, sent1) => (.error err, sent1)
  | (.ok respBody, sent1) =>
    match unmarshal respBody with
    | .error err => (.error ("failed to unmarshal response: ".toList ++ err), sent1)
    | .ok result => (.ok result.ID, sent1)

/-- The method `Client.DeleteDataset` of client.go (lines 213-220);
`pathEscape` is `url.PathEscape`. -/
def DeleteDataset (h : HTTP) (pathEscape : GoString → GoString)
    (c : Client) (sent : List Request) (datasetID : GoString) :
    Option GoString × List Request :=
  let encodedID := pathEscape datasetID
  let endpoint := "/pool/dataset/id/".toList ++ encodedID
  match doRequest h c sent "DELETE".toList endpoint none with
  | (.error err, sent1) => (some err, sent1)
  | (.ok _, sent1) => (none, sent1)

/-- The body of the DELETE request of `ClearDataset` (client.go lines 241-244). -/
def deleteBody : Payload :=
  [("recursive".toList, .bool true), ("force".toList, .bool true)]

/-- The body of the POST request of `ClearDataset` (client.go lines 251-254). -/
def recreatePayload (dataset : Dataset) : Payload :=
  [("name".toList, .string dataset.ID), ("type".toList, .string dataset.Type_)]

/-- The method `Client.ClearDataset` of client.go (lines 222-262). -/
def ClearDataset (h : HTTP) (pathEscape : GoString → GoString)
    (unmarshal : GoString → Except GoString Dataset)
    (c : Client) (sent : List Request) (datasetID : GoString) :
    Option GoString × List Request :=
  let encodedID := pathEscape datasetID
  let endpoint := "/pool/dataset/id/".toList ++ encodedID
  let getEndpoint := "/pool/dataset/id/".toList ++ encodedID
  match doRequest h c sent "GET".toList getEndpoint none with
  | (.error err, sent1) => (some ("failed to get dataset info: ".toList ++ err), sent1)
  | (.ok respBody, sent1) =>
    match unmarshal respBody with
    | .error err => (some ("failed to unmarshal dataset: ".toList ++ err), sent1)
    | .ok dataset =>
      match doRequest h c sent1 "DELETE".toList endpoint (some deleteBody) with
      | (.error err, sent2) => (some ("failed to delete dataset: ".toList ++ err), sent2)
      | (.ok _, sent2) =>
        match doRequest h c sent2 "POST".toList "/pool/dataset".toList
            (some (recreatePayload dataset)) with
        | (.error err, sent3) => (some ("failed to recreate dataset: ".toList ++ err), sent3)
        | (.ok _, sent3) => (none, sent3)

/-- The process environment: the value of each variable that is set. -/
abbrev Env := GoString → Option GoString

/-- The library call `os.Getenv`: the value of the variable, empty when unset. -/
def Getenv (env : Env) (key : GoString) : GoString := (env key).getD []

/-- The library call `os.Setenv`, its error discarded as `LoadConfig` does: an
empty key, a key holding `=` or NUL, or a value holding NUL is refused and the
environment stays as it was. -/
def Setenv (env : Env) (key value : GoString) : Env :=
  if key = [] ∨ '='  ∈ key ∨ Char.ofNat 0 ∈ key ∨ Char.ofNat 0 ∈ value then env
  else fun k => if k = key then some value else env k

/-- The constructor `NewClient` of client.go (lines 45-66). -/
def NewClient (env : Env) : Except GoString Client :=
  let baseURL := Getenv env "TRUENAS_URL".toList
  if baseURL = [] then
    .error "TRUENAS_URL environment variable not set".toList
  else
    let apiKey := Getenv env "TRUENAS_API_KEY".toList
    if apiKey = [] then
      .error "TRUENAS_API_KEY environment variable not set".toList
    else
      .ok { baseURL := baseURL, apiKey := apiKey }

/-- The constructor `NewClientWithParams` of client.go (lines 68-86). -/
def NewClientWithParams (server token : GoString) : Except GoString Client :=
  if server = [] then
    .error "server URL is required".toList
  else if token = [] then
    .error "API token is required".toList
  else
    .ok { baseURL := server, apiKey := token }

/-- Client resolution in `listCmd.RunE` (list.go lines 25-32). -/
def listClient (server token : GoString) (env : Env) : Except GoString Client :=
  if server ≠ [] ∧ token ≠ [] then NewClientWithParams server token else NewClient env

/-- Client resolution in `addCmd.RunE` (add.go lines 30-36). -/
def addClient (addServer addToken : GoString) (env : Env) : Except GoString Client :=
  if addServer ≠ [] ∧ addToken ≠ [] then NewClientWithParams addServer addToken
  else NewClient env

/-- Client resolution in `removeCmd.RunE` (remove.go lines 45-52). -/
def removeClient (removeServer removeToken : GoString) (env : Env) : Except GoString Client :=
  if removeServer ≠ [] ∧ removeToken ≠ [] then NewClientWithParams removeServer removeToken
  else NewClient env

/-- Client resolution in `clearCmd.RunE` (clear.go lines 45-52). -/
def clearClient (clearServer clearToken : GoString) (env : Env) : Except GoString Client :=
  if clearServer ≠ [] ∧ clearToken ≠ [] then NewClientWithParams clearServer clearToken
  else NewClient env

/-- What one run of a command leaves behind: the texts printed to standard
output in order, the error `RunE` returns, the requests sent so far, and (ghost)
whether control reached the call of the client operation. -/
structure Outcome where
  stdout : List GoString
  err : Option GoString
  sent : List Request
  invoked : Bool
  deriving DecidableEq, Repr

/-- The part of `removeCmd.RunE` after the confirmation gate (remove.go lines
45-63); `out` is what has been printed so far. -/
def removeProceed (h : HTTP) (pathEscape : GoString → GoString) (env : Env)
    (removeServer removeToken : GoString) (sent : List Request) (out : List GoString)
    (datasetName : GoString) : Outcome :=
  match removeClient removeServer removeToken env with
  | .error err =>
    { stdout := out, err := some ("failed to create TrueNAS client: ".toList ++ err),
      sent := sent, invoked := false }
  | .ok client =>
    match DeleteDataset h pathEscape client sent datasetName with
    | (some err, sent1) =>
      { stdout := out, err := some ("failed to delete dataset: ".toList ++ err),
        sent := sent1, invoked := true }
    | (none, sent1) =>
      { stdout := out ++ ["Successfully removed dataset '".toList ++ datasetName ++ "'\n".toList],
        err := none, sent := sent1, invoked := true }

/-- The function `removeCmd.RunE` of remove.go (lines 24-64).  `readString` is
what `reader.ReadString` gives on standard input when it is called; `toLower`
and `trimSpace` are `strings.ToLower` and `strings.TrimSpace`. -/
def removeRunE (h : HTTP) (toLower trimSpace pathEscape : GoString → GoString) (env : Env)
    (removeServer removeToken : GoString) (removeForce : Bool)
    (readString : Except GoString GoString) (sent : List Request)
    (datasetName : GoString) : Outcome :=
  if !removeForce then
    let out := ["WARNING: This will permanently DELETE dataset '".toList ++ datasetName
        ++ "' and all its data\n".toList, "Are you sure? (y/n): ".toList]
    match readString with
    | .error err =>
      { stdout := out, err := some ("failed to read confirmation: ".toList ++ err),
        sent := sent, invoked := false }
    | .ok response =>
      let response := trimSpace (toLower response)
      if response ≠ "y".toList ∧ response ≠ "yes".toList then
        { stdout := out ++ ["Operation cancelled\n".toList], err := none,
          sent := sent, invoked := false }
      else
        removeProceed h pathEscape env removeServer removeToken sent out datasetName
  else
    removeProceed h pathEscape env removeServer removeToken sent [] datasetName

/-- The part of `clearCmd.RunE` after the confirmation gate (clear.go lines
45-63); `out` is what has been printed so far. -/
def clearProceed (h : HTTP) (pathEscape : GoString → GoString)
    (unmarshal : GoString → Except GoString Dataset) (env : Env)
    (clearServer clearToken : GoString) (sent : List Request) (out : List GoString)
    (datasetName : GoString) : Outcome :=
  match clearClient clearServer clearToken env with
  | .error err =>
    { stdout := out, err := some ("failed to create TrueNAS client: ".toList ++ err),
      sent := sent, invoked := false }
  | .ok client =>
    match ClearDataset h pathEscape unmarshal client sent datasetName with
    | (some err, sent1) =>
      { stdout := out, err := some ("failed to clear dataset: ".toList ++ err),
        sent := sent1, invoked := true }
    | (none, sent1) =>
      { stdout := out ++ ["Successfully cleared dataset '".toList ++ datasetName ++ "'\n".toList],
        err := none, sent := sent1, invoked := true }

/-- The function `clearCmd.RunE` of clear.go (lines 24-64). -/
def clearRunE (h : HTTP) (toLower trimSpace pathEscape : GoString → GoString)
    (unmarshal : GoString → Except GoString Dataset) (env : Env)
    (clearServer clearToken : GoString) (clearForce : Bool)
    (readString : Except GoString GoString) (sent : List Request)
    (datasetName : GoString) : Outcome :=
  if !clearForce then
    let out := ["WARNING: This will DELETE ALL DATA in dataset '".toList ++ datasetName
        ++ "'\n".toList, "Are you sure? (y/n): ".toList]
    match readString with
    | .error err =>
      { stdout := out, err := some ("failed to read confirmation: ".toList ++ err),
        sent := sent, invoked := false }
    | .ok response =>
      let response := trimSpace (toLower response)
      if response ≠ "y".toList ∧ response ≠ "yes".toList then
        { stdout := out ++ ["Operation cancelled\n".toList], err := none,
          sent := sent, invoked := false }
      else
        clearProceed h pathEscape unmarshal env clearServer clearToken sent out datasetName
  else
    clearProceed h pathEscape unmarshal env clearServer clearToken sent [] datasetName

/-- The loop of `splitLines` (config.go lines 111-118): `lines` and `line` are
the two variables of the function, the first argument is the rest of the input. -/
def splitLinesLoop : List Char → List GoString → GoString → List GoString × GoString
  | [], lines, line => (lines, line)
  | c :: rest, lines, line =>
    if c = '\n' then splitLinesLoop rest (lines ++ [line]) []
    else splitLinesLoop rest lines (line ++ [c])

/-- The function `splitLines` of config.go (lines 108-123). -/
def splitLines (s : GoString) : List GoString :=
  let r := splitLinesLoop s [] []
  if r.2 ≠ [] then r.1 ++ [r.2] else r.1

/-- The loop of `splitKeyValue` (config.go lines 126-130): `i` is the index of
the head of the remaining input within `s`. -/
def splitKeyValueLoop (s : GoString) : Nat → List Char → List GoString
  | _, [] => [s]
  | i, c :: rest =>
    if c = '=' then [s.take i, s.drop (i + 1)] else splitKeyValueLoop s (i + 1) rest

/-- The function `splitKeyValue` of config.go (lines 125-132). -/
def splitKeyValue (s : GoString) : List GoString := splitKeyValueLoop s 0 s

/-- What `os.ReadFile` gives for the configuration file. -/
inductive ReadFile where
  | data (content : GoString)
  | notExist
  | failed (msg : GoString)
  deriving DecidableEq, Repr

/-- One pass of the parsing loop of `saveConfig` (config.go lines 77-84). -/
def saveConfigStep (config : GoMap GoString) (line : GoString) : GoMap GoString :=
  match line with
  | [] => config
  | c :: _ =>
    if c ≠ '#' then
      match splitKeyValue line with
      | [k, v] => config.set k v
      | _ => config
    else config

/-- The map `saveConfig` reads back from the existing file (config.go lines
73-85): empty when the file cannot be read. -/
def readConfig (file : ReadFile) : GoMap GoString :=
  match file with
  | .data content => (splitLines content).foldl saveConfigStep []
  | _ => []

/-- The text `saveConfig` assembles from the map (config.go lines 91-99). -/
def renderConfig (config : GoMap GoString) : GoString :=
  let content : GoString := []
  let content := content ++ "# TrueNAS Configuration\n".toList
  let content := content ++ "# This file is automatically managed by tnmanage\n\n".toList
  let content :=
    match config.get "TRUENAS_URL".toList with
    | some url => content ++ ("TRUENAS_URL=".toList ++ url ++ "\n".toList)
    | none => content
  let content :=
    match config.get "TRUENAS_API_KEY".toList with
    | some token => content ++ ("TRUENAS_API_KEY=".toList ++ token ++ "\n".toList)
    | none => content
  content

/-- The function `saveConfig` of config.go (lines 66-106), as the text it hands
to `os.WriteFile` given what `os.ReadFile` returned.  (When the home directory
cannot be resolved it returns before reading, and a failing write is reported
after this text has been assembled.) -/
def saveConfig (file : ReadFile) (key value : GoString) : GoString :=
  let config := readConfig file
  let config := config.set key value
  renderConfig config

/-- One pass of the loop of `LoadConfig` (config.go lines 152-162). -/
def loadConfigStep (env : Env) (line : GoString) : Env :=
  match line with
  | [] => env
  | c :: _ =>
    if c ≠ '#' then
      match splitKeyValue line with
      | [k, v] => if Getenv env k = [] then Setenv env k v else env
      | _ => env
    else env

/-- The function `LoadConfig` of config.go (lines 134-165): the error returned
and the environment left behind. -/
def LoadConfig (file : ReadFile) (env : Env) : Option GoString × Env :=
  match file with
  | .notExist => (none, env)
  | .failed msg => (some msg, env)
  | .data content => (none, (splitLines content).foldl loadConfigStep env)

/-- The selection the specification words for `ListDatasets`: pool field equal
to `p`, or ID equal to `p`, or ID starting with `p` followed by a slash. -/
def specListed (p : GoString) (ds : Dataset) : Bool :=
  decide (ds.Pool = p ∨ ds.ID = p ∨ (p ++ "/".toList) <+: ds.ID)

/-- A network that accepts every request and answers each with status 200 and
the body `b`. -/
def okHTTP (b : GoString) : HTTP :=
  { newRequest := fun _ _ => none
    roundTrip := fun _ _ => .response 200 b }

/-- A dataset with the given ID, pool and type and nothing else set. -/
def mkDataset (id pool type : GoString) : Dataset :=
  { ID := id, Name := id, Pool := pool, Type_ := type, Used := none, Available := none,
    Mountpoint := [], Compression := none, Deduplication := none }

/-- A client used in the concrete evaluations. -/
def demoClient : Client := { baseURL := "https://nas".toList, apiKey := "k".toList }

/-- A remote listing used in the concrete evaluations: the pool root, a child
whose pool field is blank, a dataset of another pool with a longer name, and a
dataset of an unrelated pool. -/
def demoList : List Dataset :=
  [ mkDataset "tank".toList "tank".toList "FILESYSTEM".toList,
    mkDataset "tank2/x".toList "tank2".toList "FILESYSTEM".toList,
    mkDataset "tank/a".toList [] "VOLUME".toList,
    mkDataset "other".toList "other".toList "FILESYSTEM".toList ]

/-- A network that accepts every request and answers each with status `s` and
the body `b`. -/
def statusHTTP (s : Int) (b : GoString) : HTTP :=
  { newRequest := fun _ _ => none
    roundTrip := fun _ _ => .response s b }

/-- The endpoint `ClearDataset` and `DeleteDataset` address (client.go lines
215-216 and 225-226). -/
def datasetEndpoint (pathEscape : GoString → GoString) (datasetID : GoString) : GoString :=
  "/pool/dataset/id/".toList ++ pathEscape datasetID

/-- What `url.PathEscape` does to an ID made of letters, digits and slashes:
each slash becomes `%2F`.  Used in the concrete evaluations. -/
def demoEscape : GoString → GoString
  | [] => []
  | c :: rest => if c = '/' then '%' :: '2' :: 'F' :: demoEscape rest else c :: demoEscape rest

/-- A network that accepts every request and answers the first `n` requests
with status 200 and every later one with status 500; the body is `b`. -/
def failAfterHTTP (n : Nat) (b : GoString) : HTTP :=
  { newRequest := fun _ _ => none
    roundTrip := fun sent _ => if sent.length < n then .response 200 b else .response 500 b }

/-- The GET request of `ClearDataset` (client.go lines 229-230). -/
def clearGetReq (c : Client) (pathEscape : GoString → GoString) (id : GoString) : Request :=
  mkRequest c "GET".toList (datasetEndpoint pathEscape id) none

/-- The DELETE request of `ClearDataset` (client.go lines 241-245). -/
def clearDeleteReq (c : Client) (pathEscape : GoString → GoString) (id : GoString) : Request :=
  mkRequest c "DELETE".toList (datasetEndpoint pathEscape id) (some deleteBody)

/-- The POST request of `ClearDataset` (client.go lines 251-256). -/
def clearPostReq (c : Client) (dataset : Dataset) : Request :=
  mkRequest c "POST".toList "/pool/dataset".toList (some (recreatePayload dataset))

/-- The first step of `ClearDataset`: the call of `doRequest` at line 230. -/
def clearGet (h : HTTP) (pathEscape : GoString → GoString) (c : Client)
    (sent : List Request) (id : GoString) : Except GoString GoString × List Request :=
  doRequest h c sent "GET".toList (datasetEndpoint pathEscape id) none

/-- The second step of `ClearDataset`: the call of `doRequest` at line 245, made
after the GET request went out. -/
def clearDelete (h : HTTP) (pathEscape : GoString → GoString) (c : Client)
    (sent : List Request) (id : GoString) : Except GoString GoString × List Request :=
  doRequest h c (sent ++ [clearGetReq c pathEscape id]) "DELETE".toList
    (datasetEndpoint pathEscape id) (some deleteBody)

/-- The third step of `ClearDataset`: the call of `doRequest` at line 256, made
after the GET and DELETE requests went out. -/
def clearPost (h : HTTP) (pathEscape : GoString → GoString) (c : Client)
    (sent : List Request) (id : GoString) (dataset : Dataset) :
    Except GoString GoString × List Request :=
  doRequest h c (sent ++ [clearGetReq c pathEscape id] ++ [clearDeleteReq c pathEscape id])
    "POST".toList "/pool/dataset".toList (some (recreatePayload dataset))

/-- An environment in which both variables are set.  Used in the concrete
evaluations. -/
def demoEnv : Env := fun k =>
  if k = "TRUENAS_URL".toList then some "https://env".toList
  else if k = "TRUENAS_API_KEY".toList then some "envkey".toList
  else none

/-- An environment in which no variable is set. -/
def emptyEnv : Env := fun _ => none

/-- The confirmation the specification words: the force flag is set, or the
line read, lowercased and trimmed, is `y` or `yes`.  `line` is the text before
the newline that ends it. -/
def confirms (toLower trimSpace : GoString → GoString) (force : Bool) (line : GoString) :
    Prop :=
  force = true ∨ trimSpace (toLower (line ++ "\n".toList)) = "y".toList
    ∨ trimSpace (toLower (line ++ "\n".toList)) = "yes".toList

instance (toLower trimSpace : GoString → GoString) (force : Bool) (line : GoString) :
    Decidable (confirms toLower trimSpace force line) := by
  unfold confirms
  infer_instance

/-- What `strings.ToLower` does to text of the ASCII range.  Used in the
concrete evaluations. -/
def demoLower (s : GoString) : GoString := s.map Char.toLower

/-- The white space of the ASCII range as `strings.TrimSpace` sees it: tab,
line feed, vertical tab, form feed, carriage return and space. -/
def isAsciiSpace (c : Char) : Bool :=
  c = ' ' || (9 ≤ c.toNat && c.toNat ≤ 13)

/-- What `strings.TrimSpace` does to text of the ASCII range.  Used in the
concrete evaluations. -/
def demoTrim (s : GoString) : GoString :=
  ((s.dropWhile isAsciiSpace).reverse.dropWhile isAsciiSpace).reverse

/-- What a line of the configuration file sets, as both `saveConfig` (config.go
lines 78-82) and `LoadConfig` (lines 153-155) decide it: nothing for an empty
line, a line whose first character is `#`, or a line that `splitKeyValue` does
not cut in two; otherwise the two parts. -/
def parseLine (line : GoString) : Option (GoString × GoString) :=
  match line with
  | [] => none
  | c :: _ =>
    if c ≠ '#' then
      match splitKeyValue line with
      | [k, v] => some (k, v)
      | _ => none
    else none

/-- The fixed head of the file `saveConfig` writes: two comment lines and a
blank line (config.go lines 92-93). -/
def configHeader : GoString :=
  "# TrueNAS Configuration\n".toList
    ++ "# This file is automatically managed by tnmanage\n\n".toList

/-- The line `saveConfig` writes for a key that is present, newline included
(config.go lines 95 and 98); nothing for a key that is absent. -/
def configLine (key : GoString) (value : Option GoString) : GoString :=
  match value with
  | some v => key ++ "=".toList ++ v ++ "\n".toList
  | none => []

/-- The line of the rewritten file for a key that is present, without its
newline; no line for a key that is absent. -/
def configLines (key : GoString) (value : Option GoString) : List GoString :=
  match value with
  | some v => [key ++ "=".toList ++ v]
  | none => []

/-- A configuration file edited by hand: a comment, an unknown key, the server
URL given twice, a line without an equals sign, and the token.  Used in the
concrete evaluations. -/
def demoFile : GoString :=
  ("# mine\nEXTRA=1\nTRUENAS_URL=https://old\nnoise\n"
    ++ "TRUENAS_URL=https://new\nTRUENAS_API_KEY=a=b\n").toList

/-- A finite `float64` value, held as the exact fraction `num / den`. -/
structure Float64 where
  num : Int
  den : Nat
  deriving DecidableEq, Repr

/-- The number of binary digits of `a`, for `a` below `2 ^ fuel`. -/
def bitLength : Nat → Nat → Nat
  | 0, _ => 0
  | fuel + 1, a => if a = 0 then 0 else bitLength fuel (a / 2) + 1

/-- The conversion `float64(i)` of an `int64`: the double nearest to `i`, a tie
going to the even significand.  A double has 53 significant binary digits, so a
number with more digits loses the lowest ones. -/
def Float64.ofInt64 (i : Int) : Float64 :=
  let a := i.natAbs
  let sh := bitLength 64 a - 53
  let q := a / 2 ^ sh
  let r := a % 2 ^ sh
  let m := if 2 * r > 2 ^ sh ∨ (2 * r = 2 ^ sh ∧ q % 2 = 1) then q + 1 else q
  { num := (if i < 0 then -1 else 1) * ((m * 2 ^ sh : Nat) : Int), den := 1 }

/-- The quotient `x / y` of two doubles, `y` not zero.  The machine returns the
double nearest to the exact quotient; in `formatBytes` the divisor is a power of
two from `2^10` to `2^60` and the dividend is at least as large, so the exact
quotient is a double and is what the machine returns. -/
def Float64.div (x y : Float64) : Float64 :=
  { num := x.num * y.den * y.num.sign, den := x.den * y.num.natAbs }

/-- The fraction `num / den` written with one decimal place: rounded to the
nearest tenth, a tie going to the even digit. -/
def oneDecimal (num : Int) (den : Nat) : GoString :=
  let a := num.natAbs
  let q := 10 * a / den
  let r := 10 * a % den
  let t := if 2 * r > den ∨ (2 * r = den ∧ q % 2 = 1) then q + 1 else q
  (if num < 0 then "-".toList else []) ++ (toString (t / 10)).toList ++ ".".toList
    ++ (toString (t % 10)).toList

/-- The verb `%.1f` of `fmt.Sprintf` on a finite double: the exact value of the
double written with one decimal place. -/
def sprintfF1 (x : Float64) : GoString := oneDecimal x.num x.den

/-- The loop of `formatBytes` (list.go lines 96-99), with the loop variable `n`
and the variables `div` and `exp`; `none` when the passes allowed run out.  The
operands of the division are not negative, where it agrees with the truncating
division of Go. -/
def formatBytesLoop : Nat → Int → Int → Nat → Option (Int × Nat)
  | 0, _, _, _ => none
  | fuel + 1, n, div, exp =>
    if n ≥ 1024 then formatBytesLoop fuel (n / 1024) (mulInt64 div 1024) (exp + 1)
    else some (div, exp)

/-- The function `formatBytes` of list.go (lines 89-101).  The result is `none`
when the loop does not end within 64 passes or the index into `KMGTPE` is out
of range (a run-time panic). -/
def formatBytes (bytes : Int) : Option GoString :=
  if bytes < 1024 then
    some ((toString bytes).toList ++ " B".toList)
  else
    match formatBytesLoop 64 (bytes / 1024) 1024 0 with
    | none => none
    | some (div, exp) =>
      match "KMGTPE".toList[exp]? with
      | none => none
      | some c =>
        some (sprintfF1 (Float64.div (Float64.ofInt64 bytes) (Float64.ofInt64 div))
          ++ " ".toList ++ [c] ++ "iB".toList)

/-- The text the specification words for a size of at least 1024 bytes: `n`
divided by `1024^k` written with one decimal place, a space, the `k`-th letter
of `KMGTPE` and `iB`. -/
def specFormat (n : Int) (k : Nat) : Option GoString :=
  match "KMGTPE".toList[k - 1]? with
  | none => none
  | some c => some (oneDecimal n (1024 ^ k) ++ " ".toList ++ [c] ++ "iB".toList)

/-- What the transport of the HTTP client (`http.Transport`, client.go lines
61-63 and 81-83) gives for one request put on the wire: a failure, `msg` being
the text of the error `httpClient.Do` returns for it, or a response with its
status code, its `Location` header (empty when the header is absent) and what
reading its body gives. -/
inductive Delivery where
  | failed (msg : GoString)
  | response (statusCode : Int) (location : GoString) (body : Except GoString GoString)
  deriving DecidableEq

/-- The transport: what it delivers for a request, given the requests put on the
wire before. -/
abbrev Transport := List Request → Request → Delivery

/-- The parts of `http.Client.Do` taken as given.  `follow first req statusCode
location` is the request the client builds to follow a redirect (the target is
`location` resolved against the URL of `req`, the headers are copied from the
first request by the rules of net/http), or the text of the error `Do` returns
when the `Location` header does not parse; `stopped first location` is the text
of the error `Do` returns when the redirect limit is reached. -/
structure Redirects where
  follow : Request → Request → Int → GoString → Except GoString Request
  stopped : Request → GoString → GoString

/-- The status codes `http.Client` treats as a redirect (`redirectBehavior` of
net/http).  For 307 and 308 the client needs to send the body again; the
requests of `doRequest` have no body or a `bytes.Buffer`, which can be sent
again, so these two are followed as well. -/
def isRedirect (statusCode : Int) : Bool :=
  decide (statusCode = 301 ∨ statusCode = 302 ∨ statusCode = 303 ∨ statusCode = 307
    ∨ statusCode = 308)

/-- The outcome of one exchange inside `http.Client.Do`: the call is over with a
result, or the response is a redirect to follow with the request `next`. -/
inductive DoStep where
  | done (result : RoundTrip)
  | redirect (location : GoString) (next : Request)
  deriving DecidableEq

/-- One exchange of `http.Client.Do` under the default policy, the client of
client.go (lines 59-64 and 79-84) setting no `CheckRedirect`: the request goes
to the transport; a response with a redirect status and a `Location` header is
to be followed, every other response is returned and its body read
(`io.ReadAll`, client.go line 113). -/
def clientDoStep (t : Transport) (p : Redirects) (first : Request) (wire : List Request)
    (req : Request) : DoStep :=
  match t wire req with
  | .failed msg => .done (.doError msg)
  | .response statusCode location body =>
    if isRedirect statusCode = true ∧ location ≠ [] then
      match p.follow first req statusCode location with
      | .error err => .done (.doError err)
      | .ok next => .redirect location next
    else
      match body with
      | .error err => .done (.readError err)
      | .ok respBody => .done (.response statusCode respBody)

/-- The loop of `http.Client.Do`: `left` is the number of requests the default
policy still allows after `req`; it returns the outcome and the requests put on
the wire. -/
def clientDoLoop (t : Transport) (p : Redirects) (first : Request) :
    Nat → List Request → Request → RoundTrip × List Request
  | 0, wire, req =>
    match clientDoStep t p first wire req with
    | .done result => (result, wire ++ [req])
    | .redirect location _ => (.doError (p.stopped first location), wire ++ [req])
  | left + 1, wire, req =>
    match clientDoStep t p first wire req with
    | .done result => (result, wire ++ [req])
    | .redirect _ next => clientDoLoop t p first left (wire ++ [req]) next

/-- The call `httpClient.Do(req)` followed by `io.ReadAll` (client.go lines
107-116) over a transport: the default policy of `http.Client` stops after ten
requests. -/
def clientDo (t : Transport) (p : Redirects) (wire : List Request) (req : Request) :
    RoundTrip × List Request :=
  clientDoLoop t p req 9 wire req

/-- The HTTP client of client.go (lines 59-64 and 79-84) over a transport, as
`doRequest` uses it.  The transport is given the requests handed to the client
before, followed by the requests of the call in progress. -/
def transportHTTP (newRequest : GoString → GoString → Option GoString) (t : Transport)
    (p : Redirects) : HTTP :=
  { newRequest := newRequest
    roundTrip := fun sent req => (clientDo t p sent req).1 }

/-- A transport that answers each request with status `s` and the body `b`,
without a `Location` header. -/
def statusTransport (s : Int) (b : GoString) : Transport :=
  fun _ _ => .response s [] (.ok b)

/-- A transport that answers the first request put on the wire with status 302,
the header `Location: loc` and the body `moved`, and every later request with
status 200 and the body `b`. -/
def redirectOnce (loc b : GoString) : Transport :=
  fun wire _ =>
    if wire = [] then .response 302 loc (.ok "moved".toList) else .response 200 [] (.ok b)

/-- The redirects of the concrete evaluations: the request is sent again,
unchanged but for its URL, to the URL the `Location` header gives. -/
def demoRedirects : Redirects :=
  { follow := fun _ req _ location => .ok { req with url := location }
    stopped := fun _ _ => "stopped after 10 redirects".toList }

/-! ## ListDatasets -/

/-- The length test and slice comparison of `ListDatasets` say that the ID starts
with the pool name followed by a slash. -/
theorem take_slash_iff (p id : GoString) :
    (id.length > p.length ∧ id.take (p.length + 1) = p ++ "/".toList)
      ↔ (p ++ "/".toList) <+: id := by
  constructor
  · rintro ⟨_, h2⟩
    rw [← h2]
    exact List.take_prefix _ _
  · intro hp
    have hl := hp.length_le
    have ht := List.prefix_iff_eq_take.mp hp
    simp at hl ht
    exact ⟨by omega, ht.symm⟩

/-- One pass of the loop appends the entry exactly when it is selected. -/
theorem listStep_eq (p : GoString) (acc : List Dataset) (ds : Dataset) :
    listStep p acc ds = acc ++ (if ds.Pool = p ∨ ds.ID = p
      ∨ (p ≠ [] ∧ (p ++ "/".toList) <+: ds.ID) then [ds] else []) := by
  unfold listStep
  by_cases h1 : ds.Pool = p ∨ ds.ID = p
  · have h1' : ds.Pool = p ∨ ds.ID = p ∨ (p ≠ [] ∧ (p ++ "/".toList) <+: ds.ID) := by tauto
    rw [if_pos h1, if_pos h1']
  · rw [if_neg h1]
    have hk := take_slash_iff p ds.ID
    by_cases h2 : p ≠ [] ∧ ds.ID.length > p.length
        ∧ ds.ID.take (p.length + 1) = p ++ "/".toList
    · have h2' : ds.Pool = p ∨ ds.ID = p ∨ (p ≠ [] ∧ (p ++ "/".toList) <+: ds.ID) := by tauto
      rw [if_pos h2, if_pos h2']
    · have h2' : ¬ (ds.Pool = p ∨ ds.ID = p ∨ (p ≠ [] ∧ (p ++ "/".toList) <+: ds.ID)) := by
        tauto
      rw [if_neg h2, if_neg h2', List.append_nil]

/-- The loop of `ListDatasets` is a filter that keeps order. -/
theorem listStep_foldl (p : GoString) (L acc : List Dataset) :
    L.foldl (listStep p) acc = acc ++ L.filter (fun ds =>
      decide (ds.Pool = p ∨ ds.ID = p ∨ (p ≠ [] ∧ (p ++ "/".toList) <+: ds.ID))) := by
  induction L generalizing acc with
  | nil => simp
  | cons ds rest ih =>
    rw [List.foldl_cons, ih, listStep_eq, List.filter_cons]
    by_cases h : ds.Pool = p ∨ ds.ID = p ∨ (p ≠ [] ∧ (p ++ "/".toList) <+: ds.ID)
    · rw [if_pos h, if_pos (decide_eq_true h)]
      simp
    · rw [if_neg h, if_neg (by simpa using h)]
      simp

/-- C1 (as amended): when the remote answers the listing request with a body
that decodes to `L`, `ListDatasets p` returns exactly the entries of `L`, in
their original order, whose pool field equals `p`, or whose ID equals `p`, or,
for a non-empty `p`, whose ID starts with `p` followed by a slash; for a
non-empty `p` this is the selection the specification words. -/
theorem ListDatasets_selects (h : HTTP)
    (unmarshalList : GoString → Except GoString (List Dataset)) (c : Client)
    (sent : List Request) (p body : GoString) (L : List Dataset)
    (hreq : (doRequest h c sent "GET".toList "/pool/dataset".toList none).1 = .ok body)
    (hdec : unmarshalList body = .ok L) :
    (ListDatasets h unmarshalList c sent p).1
        = .ok (L.filter (fun ds =>
            decide (ds.Pool = p ∨ ds.ID = p ∨ (p ≠ [] ∧ (p ++ "/".toList) <+: ds.ID))))
      ∧ (p ≠ [] → (ListDatasets h unmarshalList c sent p).1 = .ok (L.filter (specListed p))) := by
  have key : (ListDatasets h unmarshalList c sent p).1
        = .ok (L.filter (fun ds =>
            decide (ds.Pool = p ∨ ds.ID = p ∨ (p ≠ [] ∧ (p ++ "/".toList) <+: ds.ID)))) := by
    unfold ListDatasets
    rcases hd : doRequest h c sent "GET".toList "/pool/dataset".toList none with ⟨r, s1⟩
    rw [hd] at hreq
    simp only at hreq
    subst hreq
    simp only [hdec, listStep_foldl, List.nil_append]
  refine ⟨key, fun hp => ?_⟩
  rw [key]
  congr 2
  funext ds
  simp only [specListed, hp, ne_eq, not_false_eq_true, true_and]

/-- C1, a concrete run: for the pool `tank` the root and the child are listed and
the dataset of pool `tank2` is not. -/
theorem ListDatasets_selects_witness :
    (doRequest (okHTTP "[]".toList) demoClient [] "GET".toList "/pool/dataset".toList none).1
        = .ok "[]".toList
      ∧ (ListDatasets (okHTTP "[]".toList) (fun _ => .ok demoList) demoClient []
          "tank".toList).1
        = .ok [mkDataset "tank".toList "tank".toList "FILESYSTEM".toList,
               mkDataset "tank/a".toList [] "VOLUME".toList] := by
  refine ⟨by decide, ?_⟩
  have h := (ListDatasets_selects (okHTTP "[]".toList) (fun _ => .ok demoList) demoClient []
    "tank".toList "[]".toList demoList (by decide) rfl).1
  rw [h]
  decide

/-- C1 as stated fails for the empty pool name: an entry whose ID starts with a
slash is selected by the wording of the specification and not returned by the code. -/
theorem ListDatasets_empty_pool_counterexample :
    (ListDatasets (okHTTP "[]".toList)
        (fun _ => .ok [mkDataset "/x".toList "tank".toList "FILESYSTEM".toList])
        demoClient [] []).1 = .ok []
      ∧ [mkDataset "/x".toList "tank".toList "FILESYSTEM".toList].filter (specListed [])
        = [mkDataset "/x".toList "tank".toList "FILESYSTEM".toList] := by
  decide

/-! ## doRequest -/

/-- A request that `doRequest` reports as successful was handed to the network,
and is the only one added to the requests sent. -/
theorem doRequest_ok_sent (h : HTTP) (c : Client) (sent : List Request)
    (method endpoint : GoString) (body : Option Payload) (b : GoString)
    (hok : (doRequest h c sent method endpoint body).1 = .ok b) :
    doRequest h c sent method endpoint body
      = (.ok b, sent ++ [mkRequest c method endpoint body]) := by
  unfold doRequest at hok ⊢
  dsimp only at hok ⊢
  generalize h.newRequest method (c.baseURL ++ "/api/v2.0".toList ++ endpoint) = n at hok ⊢
  cases n with
  | some e => dsimp only at hok; cases hok
  | none =>
    dsimp only at hok ⊢
    generalize h.roundTrip sent (mkRequest c method endpoint body) = r at hok ⊢
    cases r with
    | doError e => dsimp only at hok; cases hok
    | readError e => dsimp only at hok; cases hok
    | response s rb =>
      dsimp only at hok ⊢
      by_cases hs : s < 200 ∨ s ≥ 300
      · rw [if_pos hs] at hok; cases hok
      · rw [if_neg hs] at hok ⊢
        cases hok
        rfl

/-- One call of `doRequest` hands at most one request to the network, the one
built from its arguments. -/
theorem doRequest_sent_cases (h : HTTP) (c : Client) (sent : List Request)
    (method endpoint : GoString) (body : Option Payload) :
    (doRequest h c sent method endpoint body).2 = sent
      ∨ (doRequest h c sent method endpoint body).2
          = sent ++ [mkRequest c method endpoint body] := by
  unfold doRequest
  dsimp only
  generalize h.newRequest method (c.baseURL ++ "/api/v2.0".toList ++ endpoint) = n
  cases n with
  | some e => exact Or.inl rfl
  | none =>
    right
    dsimp only
    generalize h.roundTrip sent (mkRequest c method endpoint body) = r
    cases r with
    | doError e => rfl
    | readError e => rfl
    | response s rb =>
      dsimp only
      by_cases hs : s < 200 ∨ s ≥ 300
      · rw [if_pos hs]
      · rw [if_neg hs]

/-- The verdict of `doRequest` on the response with status `s` and body `b` that
`httpClient.Do` returns: a failure exactly when `s < 200` or `s >= 300`, with
the message `API request failed with status <s>: <b>`, and the body `b`
otherwise. -/
theorem doRequest_verdict (h : HTTP) (c : Client) (sent : List Request)
    (method endpoint : GoString) (body : Option Payload) (s : Int) (b : GoString)
    (hnew : h.newRequest method (c.baseURL ++ "/api/v2.0".toList ++ endpoint) = none)
    (hresp : h.roundTrip sent (mkRequest c method endpoint body) = .response s b) :
    ((∃ e, (doRequest h c sent method endpoint body).1 = .error e) ↔ (s < 200 ∨ s ≥ 300))
      ∧ ((s < 200 ∨ s ≥ 300) →
          doRequest h c sent method endpoint body
            = (.error ("API request failed with status ".toList ++ (toString s).toList
                ++ ": ".toList ++ b), sent ++ [mkRequest c method endpoint body]))
      ∧ ((200 ≤ s ∧ s < 300) →
          doRequest h c sent method endpoint body
            = (.ok b, sent ++ [mkRequest c method endpoint body])) := by
  have hbad : (s < 200 ∨ s ≥ 300) →
      doRequest h c sent method endpoint body
        = (.error ("API request failed with status ".toList ++ (toString s).toList
            ++ ": ".toList ++ b), sent ++ [mkRequest c method endpoint body]) := by
    intro hs
    unfold doRequest
    simp only [hnew, hresp, hs, if_true]
  have hgood : (200 ≤ s ∧ s < 300) →
      doRequest h c sent method endpoint body
        = (.ok b, sent ++ [mkRequest c method endpoint body]) := by
    intro hs
    have hs' : ¬ (s < 200 ∨ s ≥ 300) := by omega
    unfold doRequest
    simp only [hnew, hresp, hs', if_false]
  refine ⟨⟨?_, fun hs => ⟨_, by rw [hbad hs]⟩⟩, hbad, hgood⟩
  rintro ⟨e, he⟩
  by_contra hs
  have hs' : 200 ≤ s ∧ s < 300 := by omega
  rw [hgood hs'] at he
  cases he

/-- An exchange that ends the call with a response: the transport delivered that
response, and it is not a redirect the client follows. -/
theorem clientDoStep_response (t : Transport) (p : Redirects) (first : Request)
    (wire : List Request) (req : Request) (s : Int) (b : GoString)
    (h : clientDoStep t p first wire req = .done (.response s b)) :
    ∃ loc, t wire req = .response s loc (.ok b) ∧ ¬ (isRedirect s = true ∧ loc ≠ []) := by
  unfold clientDoStep at h
  cases ht : t wire req with
  | failed msg => rw [ht] at h; cases h
  | response s1 loc body =>
    rw [ht] at h
    dsimp only at h
    by_cases hr : isRedirect s1 = true ∧ loc ≠ []
    · rw [if_pos hr] at h
      cases hf : p.follow first req s1 loc with
      | error e => rw [hf] at h; cases h
      | ok next => rw [hf] at h; cases h
    · rw [if_neg hr] at h
      cases body with
      | error e => cases h
      | ok rb =>
        dsimp only at h
        cases h
        exact ⟨loc, rfl, hr⟩

/-- A response the transport delivers that is not a redirect with a `Location`
header ends the call. -/
theorem clientDoStep_final (t : Transport) (p : Redirects) (first : Request)
    (wire : List Request) (req : Request) (s : Int) (loc b : GoString)
    (ht : t wire req = .response s loc (.ok b))
    (hr : ¬ (isRedirect s = true ∧ loc ≠ [])) :
    clientDoStep t p first wire req = .done (.response s b) := by
  unfold clientDoStep
  rw [ht]
  dsimp only
  rw [if_neg hr]

/-- A redirect with a `Location` header the client can follow does not end the
call. -/
theorem clientDoStep_redirect (t : Transport) (p : Redirects) (first : Request)
    (wire : List Request) (req : Request) (s : Int) (loc : GoString)
    (rb : Except GoString GoString) (next : Request)
    (ht : t wire req = .response s loc rb) (hs : isRedirect s = true) (hl : loc ≠ [])
    (hf : p.follow first req s loc = .ok next) :
    clientDoStep t p first wire req = .redirect loc next := by
  unfold clientDoStep
  rw [ht]
  dsimp only
  rw [if_pos ⟨hs, hl⟩, hf]

/-- The requests `http.Client.Do` puts on the wire start with the request it was
given and are at most one more than the redirects allowed. -/
theorem clientDoLoop_wire (t : Transport) (p : Redirects) (first : Request) (left : Nat)
    (wire : List Request) (req : Request) :
    ∃ more, (clientDoLoop t p first left wire req).2 = wire ++ req :: more
      ∧ more.length ≤ left := by
  induction left generalizing wire req with
  | zero =>
    unfold clientDoLoop
    cases clientDoStep t p first wire req with
    | done r => exact ⟨[], rfl, Nat.le_refl _⟩
    | redirect loc next => exact ⟨[], rfl, Nat.le_refl _⟩
  | succ n ih =>
    unfold clientDoLoop
    cases clientDoStep t p first wire req with
    | done r => exact ⟨[], rfl, Nat.zero_le _⟩
    | redirect loc next =>
      obtain ⟨more, hm, hlen⟩ := ih (wire ++ [req]) next
      refine ⟨next :: more, ?_, ?_⟩
      · dsimp only
        rw [hm, List.append_assoc]
        rfl
      · simp only [List.length_cons]
        omega

/-- The response `http.Client.Do` returns is the one the transport delivered for
the last request put on the wire, and it is not a redirect the client follows. -/
theorem clientDoLoop_response (t : Transport) (p : Redirects) (first : Request) (left : Nat)
    (wire : List Request) (req : Request) (s : Int) (b : GoString) (out : List Request)
    (h : clientDoLoop t p first left wire req = (.response s b, out)) :
    ∃ before last loc, out = before ++ [last] ∧ t before last = .response s loc (.ok b)
      ∧ ¬ (isRedirect s = true ∧ loc ≠ []) := by
  induction left generalizing wire req with
  | zero =>
    unfold clientDoLoop at h
    cases hstep : clientDoStep t p first wire req with
    | done r =>
      rw [hstep] at h
      dsimp only at h
      have h1 : r = .response s b := congrArg Prod.fst h
      have h2 : wire ++ [req] = out := congrArg Prod.snd h
      rw [h1] at hstep
      obtain ⟨loc, hd, hr⟩ := clientDoStep_response t p first wire req s b hstep
      exact ⟨wire, req, loc, h2.symm, hd, hr⟩
    | redirect loc next =>
      rw [hstep] at h
      dsimp only at h
      have h1 := congrArg Prod.fst h
      cases h1
  | succ n ih =>
    unfold clientDoLoop at h
    cases hstep : clientDoStep t p first wire req with
    | done r =>
      rw [hstep] at h
      dsimp only at h
      have h1 : r = .response s b := congrArg Prod.fst h
      have h2 : wire ++ [req] = out := congrArg Prod.snd h
      rw [h1] at hstep
      obtain ⟨loc, hd, hr⟩ := clientDoStep_response t p first wire req s b hstep
      exact ⟨wire, req, loc, h2.symm, hd, hr⟩
    | redirect loc next =>
      rw [hstep] at h
      dsimp only at h
      exact ih (wire ++ [req]) next h

/-- C6 (as amended): `doRequest` hands its request to the HTTP client once.  A
response the transport delivers with status `s` and body `b` that is not a
redirect the client follows (status 301, 302, 303, 307 or 308 with a `Location`
header) is what the client returns, and the request is the only one put on the
wire.  For the response with status `s` and body `b` the client returns, that
one or the last of a chain of redirects, `doRequest` fails exactly when
`s < 200` or `s >= 300`; the error then reads
`API request failed with status <s>: <b>` with `s` in decimal, and on a status
in `[200, 300)` the body `b` is returned unchanged; that response was delivered
for the last request put on the wire, so nothing is sent after it.  A delivered
redirect with a `Location` header the client can follow puts a second request
on the wire, and the call puts at most ten requests on the wire in all. -/
theorem doRequest_status (newRequest : GoString → GoString → Option GoString)
    (t : Transport) (p : Redirects) (c : Client) (sent : List Request)
    (method endpoint : GoString) (body : Option Payload)
    (hnew : newRequest method (c.baseURL ++ "/api/v2.0".toList ++ endpoint) = none) :
    (∀ s loc b, t sent (mkRequest c method endpoint body) = .response s loc (.ok b) →
        ¬ (isRedirect s = true ∧ loc ≠ []) →
        clientDo t p sent (mkRequest c method endpoint body)
            = (.response s b, sent ++ [mkRequest c method endpoint body])
          ∧ ((∃ e, (doRequest (transportHTTP newRequest t p) c sent method endpoint body).1
                = .error e) ↔ (s < 200 ∨ s ≥ 300))
          ∧ ((s < 200 ∨ s ≥ 300) →
              doRequest (transportHTTP newRequest t p) c sent method endpoint body
                = (.error ("API request failed with status ".toList ++ (toString s).toList
                    ++ ": ".toList ++ b), sent ++ [mkRequest c method endpoint body]))
          ∧ ((200 ≤ s ∧ s < 300) →
              doRequest (transportHTTP newRequest t p) c sent method endpoint body
                = (.ok b, sent ++ [mkRequest c method endpoint body])))
      ∧ (∀ s b out,
          clientDo t p sent (mkRequest c method endpoint body) = (.response s b, out) →
          (∃ before last loc, out = before ++ [last]
              ∧ t before last = .response s loc (.ok b)
              ∧ ¬ (isRedirect s = true ∧ loc ≠ []))
            ∧ ((∃ e, (doRequest (transportHTTP newRequest t p) c sent method endpoint body).1
                  = .error e) ↔ (s < 200 ∨ s ≥ 300))
            ∧ ((s < 200 ∨ s ≥ 300) →
                doRequest (transportHTTP newRequest t p) c sent method endpoint body
                  = (.error ("API request failed with status ".toList ++ (toString s).toList
                      ++ ": ".toList ++ b), sent ++ [mkRequest c method endpoint body]))
            ∧ ((200 ≤ s ∧ s < 300) →
                doRequest (transportHTTP newRequest t p) c sent method endpoint body
                  = (.ok b, sent ++ [mkRequest c method endpoint body])))
      ∧ (∀ s loc rb next, t sent (mkRequest c method endpoint body) = .response s loc rb →
          isRedirect s = true → loc ≠ [] →
          p.follow (mkRequest c method endpoint body) (mkRequest c method endpoint body) s loc
            = .ok next →
          clientDo t p sent (mkRequest c method endpoint body)
              = clientDoLoop t p (mkRequest c method endpoint body) 8
                  (sent ++ [mkRequest c method endpoint body]) next
            ∧ ∃ more, (clientDo t p sent (mkRequest c method endpoint body)).2
                = sent ++ mkRequest c method endpoint body :: next :: more
              ∧ more.length ≤ 8)
      ∧ (∃ more, (clientDo t p sent (mkRequest c method endpoint body)).2
            = sent ++ mkRequest c method endpoint body :: more
          ∧ more.length ≤ 9) := by
  have hverdict : ∀ s b out,
      clientDo t p sent (mkRequest c method endpoint body) = (.response s b, out) →
      ((∃ e, (doRequest (transportHTTP newRequest t p) c sent method endpoint body).1
            = .error e) ↔ (s < 200 ∨ s ≥ 300))
        ∧ ((s < 200 ∨ s ≥ 300) →
            doRequest (transportHTTP newRequest t p) c sent method endpoint body
              = (.error ("API request failed with status ".toList ++ (toString s).toList
                  ++ ": ".toList ++ b), sent ++ [mkRequest c method endpoint body]))
        ∧ ((200 ≤ s ∧ s < 300) →
            doRequest (transportHTTP newRequest t p) c sent method endpoint body
              = (.ok b, sent ++ [mkRequest c method endpoint body])) := by
    intro s b out hdo
    have hresp : (transportHTTP newRequest t p).roundTrip sent
        (mkRequest c method endpoint body) = .response s b := congrArg Prod.fst hdo
    exact doRequest_verdict (transportHTTP newRequest t p) c sent method endpoint body s b
      hnew hresp
  refine ⟨?_, ?_, ?_, ?_⟩
  · intro s loc b ht hr
    have hstep := clientDoStep_final t p (mkRequest c method endpoint body) sent
      (mkRequest c method endpoint body) s loc b ht hr
    have hdo : clientDo t p sent (mkRequest c method endpoint body)
        = (.response s b, sent ++ [mkRequest c method endpoint body]) := by
      unfold clientDo clientDoLoop
      rw [hstep]
    exact ⟨hdo, hverdict s b _ hdo⟩
  · intro s b out hdo
    exact ⟨clientDoLoop_response t p _ 9 sent _ s b out hdo, hverdict s b out hdo⟩
  · intro s loc rb next ht hs hl hf
    have hstep := clientDoStep_redirect t p (mkRequest c method endpoint body) sent
      (mkRequest c method endpoint body) s loc rb next ht hs hl hf
    have hdo : clientDo t p sent (mkRequest c method endpoint body)
        = clientDoLoop t p (mkRequest c method endpoint body) 8
            (sent ++ [mkRequest c method endpoint body]) next := by
      rw [clientDo, clientDoLoop, hstep]
    refine ⟨hdo, ?_⟩
    obtain ⟨more, hm, hlen⟩ := clientDoLoop_wire t p (mkRequest c method endpoint body) 8
      (sent ++ [mkRequest c method endpoint body]) next
    refine ⟨more, ?_, hlen⟩
    rw [hdo, hm, List.append_assoc]
    rfl
  · exact clientDoLoop_wire t p (mkRequest c method endpoint body) 9 sent
      (mkRequest c method endpoint body)

/-- C6, a concrete run: a 404 answer with body `nf` is reported with both in the
message, and one request was sent. -/
theorem doRequest_status_witness :
    doRequest (transportHTTP (fun _ _ => none) (statusTransport 404 "nf".toList) demoRedirects)
        demoClient [] "GET".toList "/pool/dataset".toList none
      = (.error "API request failed with status 404: nf".toList,
          [mkRequest demoClient "GET".toList "/pool/dataset".toList none]) :=
  ((doRequest_status (fun _ _ => none) (statusTransport 404 "nf".toList) demoRedirects
    demoClient [] "GET".toList "/pool/dataset".toList none rfl).1 404 [] "nf".toList rfl
    (by decide)).2.2.1 (by decide)

/-- C6, a counterexample to the wording "every response the transport delivers":
the transport delivers status 302 with a `Location` header and the body `moved`
for the GET request, and status 200 with the body `ok` for the request that
follows; `doRequest` does not fail although 302 is not below 300, it returns
`ok`, and a second request was put on the wire. -/
theorem doRequest_redirect_counterexample :
    redirectOnce "https://nas/api/v2.0/pool/dataset/".toList "ok".toList []
        (mkRequest demoClient "GET".toList "/pool/dataset".toList none)
      = .response 302 "https://nas/api/v2.0/pool/dataset/".toList (.ok "moved".toList)
      ∧ doRequest
          (transportHTTP (fun _ _ => none)
            (redirectOnce "https://nas/api/v2.0/pool/dataset/".toList "ok".toList)
            demoRedirects)
          demoClient [] "GET".toList "/pool/dataset".toList none
        = (.ok "ok".toList, [mkRequest demoClient "GET".toList "/pool/dataset".toList none])
      ∧ (clientDo (redirectOnce "https://nas/api/v2.0/pool/dataset/".toList "ok".toList)
          demoRedirects [] (mkRequest demoClient "GET".toList "/pool/dataset".toList none)).2.map
            (fun r => (r.method, r.url))
        = [("GET".toList, "https://nas/api/v2.0/pool/dataset".toList),
            ("GET".toList, "https://nas/api/v2.0/pool/dataset/".toList)] := by
  decide

/-! ## CreateDataset -/

/-- Wrapping leaves a number of the `int64` range as it is. -/
theorem wrapInt64_id (x : Int) (h0 : -2 ^ 63 ≤ x) (h1 : x < 2 ^ 63) : wrapInt64 x = x := by
  unfold wrapInt64
  rw [Int.emod_eq_of_lt (by omega) (by omega)]
  omega

/-- For a quota below `2^33` GB the three multiplications do not wrap: the
payload carries the name `pool/name`, the type `FILESYSTEM` and the exact byte
count `quotaGB * 1024^3`. -/
theorem createDatasetPayload_exact (poolName datasetName : GoString) (quotaGB : Int)
    (h0 : 0 < quotaGB) (h1 : quotaGB < 2 ^ 33) :
    createDatasetPayload poolName datasetName quotaGB
      = [("name".toList, .string (poolName ++ "/".toList ++ datasetName)),
         ("type".toList, .string "FILESYSTEM".toList),
         ("refquota".toList, .int64 (quotaGB * 1024 ^ 3))] := by
  have e1 : mulInt64 quotaGB 1024 = quotaGB * 1024 :=
    wrapInt64_id _ (by omega) (by omega)
  have e2 : mulInt64 (quotaGB * 1024) 1024 = quotaGB * 1024 * 1024 :=
    wrapInt64_id _ (by omega) (by omega)
  have e3 : mulInt64 (quotaGB * 1024 * 1024) 1024 = quotaGB * 1024 * 1024 * 1024 :=
    wrapInt64_id _ (by omega) (by omega)
  have e4 : quotaGB * 1024 * 1024 * 1024 = quotaGB * 1024 ^ 3 := by ring
  unfold createDatasetPayload
  dsimp only
  rw [if_pos h0, e1, e2, e3, e4]
  simp [GoMap.set]

/-- For a quota that is not positive the payload has the name and the type and
no `refquota` entry. -/
theorem createDatasetPayload_no_quota (poolName datasetName : GoString) (quotaGB : Int)
    (h0 : quotaGB ≤ 0) :
    createDatasetPayload poolName datasetName quotaGB
      = [("name".toList, .string (poolName ++ "/".toList ++ datasetName)),
         ("type".toList, .string "FILESYSTEM".toList)] := by
  unfold createDatasetPayload
  dsimp only
  rw [if_neg (by omega)]

/-- C2, the failing input: for `quotaGB = 8589934592` (that is `2^33`, a value of
Go's `int`) the request `CreateDataset` posts carries the `refquota`
`-9223372036854775808`, where `quotaGB * 1024^3` is `9223372036854775808`; for
`quotaGB = 17179869184` (`2^34`) it carries the `refquota` `0`. -/
theorem CreateDataset_refquota_wraps :
    (CreateDataset (okHTTP "ok".toList)
        (fun _ => .ok (mkDataset "tank/x".toList "tank".toList "FILESYSTEM".toList))
        demoClient [] "tank".toList "x".toList 8589934592).2
      = [mkRequest demoClient "POST".toList "/pool/dataset".toList
          (some [("name".toList, .string "tank/x".toList),
                 ("type".toList, .string "FILESYSTEM".toList),
                 ("refquota".toList, .int64 (-9223372036854775808))])]
      ∧ (8589934592 : Int) * 1024 ^ 3 = 9223372036854775808
      ∧ (createDatasetPayload "tank".toList "x".toList 17179869184).get "refquota".toList
          = some (.int64 0) := by
  decide

/-! ## ClearDataset -/

/-- When the three steps succeed `ClearDataset` returns nil after the three
requests GET, DELETE, POST. -/
theorem ClearDataset_all_ok (h : HTTP) (pathEscape : GoString → GoString)
    (unmarshal : GoString → Except GoString Dataset) (c : Client) (sent : List Request)
    (id b1 b2 b3 : GoString) (dataset : Dataset)
    (hget : (doRequest h c sent "GET".toList (datasetEndpoint pathEscape id) none).1 = .ok b1)
    (hdec : unmarshal b1 = .ok dataset)
    (hdel : (doRequest h c
        (sent ++ [mkRequest c "GET".toList (datasetEndpoint pathEscape id) none])
        "DELETE".toList (datasetEndpoint pathEscape id) (some deleteBody)).1 = .ok b2)
    (hpost : (doRequest h c
        (sent ++ [mkRequest c "GET".toList (datasetEndpoint pathEscape id) none]
          ++ [mkRequest c "DELETE".toList (datasetEndpoint pathEscape id) (some deleteBody)])
        "POST".toList "/pool/dataset".toList (some (recreatePayload dataset))).1 = .ok b3) :
    ClearDataset h pathEscape unmarshal c sent id
        = (none, sent ++
            [ mkRequest c "GET".toList ("/pool/dataset/id/".toList ++ pathEscape id) none,
              mkRequest c "DELETE".toList ("/pool/dataset/id/".toList ++ pathEscape id)
                (some [("recursive".toList, .bool true), ("force".toList, .bool true)]),
              mkRequest c "POST".toList "/pool/dataset".toList
                (some [("name".toList, .string dataset.ID),
                       ("type".toList, .string dataset.Type_)]) ]) := by
  have e1 := doRequest_ok_sent _ _ _ _ _ _ _ hget
  have e2 := doRequest_ok_sent _ _ _ _ _ _ _ hdel
  have e3 := doRequest_ok_sent _ _ _ _ _ _ _ hpost
  unfold datasetEndpoint at e1 e2 e3
  unfold ClearDataset
  dsimp only
  rw [e1]
  dsimp only
  rw [hdec]
  dsimp only
  rw [e2]
  dsimp only
  rw [e3]
  dsimp only
  rw [List.append_assoc, List.append_assoc]
  rfl

/-- C3 (as amended): when the three responses succeed and the GET body decodes
to `dataset`, `ClearDataset id` returns nil after exactly three requests, in
this order: GET on `/pool/dataset/id/<escaped id>` without body, DELETE on the
same endpoint with body `recursive=true, force=true`, POST on `/pool/dataset`
whose body has the name `dataset.ID` and the type `dataset.Type` that the GET
returned and no other entry; the name is the `id` passed in whenever the remote
answered with that ID. -/
theorem ClearDataset_three_requests (h : HTTP) (pathEscape : GoString → GoString)
    (unmarshal : GoString → Except GoString Dataset) (c : Client) (sent : List Request)
    (id b1 b2 b3 : GoString) (dataset : Dataset)
    (hget : (doRequest h c sent "GET".toList (datasetEndpoint pathEscape id) none).1 = .ok b1)
    (hdec : unmarshal b1 = .ok dataset)
    (hdel : (doRequest h c
        (sent ++ [mkRequest c "GET".toList (datasetEndpoint pathEscape id) none])
        "DELETE".toList (datasetEndpoint pathEscape id) (some deleteBody)).1 = .ok b2)
    (hpost : (doRequest h c
        (sent ++ [mkRequest c "GET".toList (datasetEndpoint pathEscape id) none]
          ++ [mkRequest c "DELETE".toList (datasetEndpoint pathEscape id) (some deleteBody)])
        "POST".toList "/pool/dataset".toList (some (recreatePayload dataset))).1 = .ok b3) :
    ClearDataset h pathEscape unmarshal c sent id
        = (none, sent ++
            [ mkRequest c "GET".toList ("/pool/dataset/id/".toList ++ pathEscape id) none,
              mkRequest c "DELETE".toList ("/pool/dataset/id/".toList ++ pathEscape id)
                (some [("recursive".toList, .bool true), ("force".toList, .bool true)]),
              mkRequest c "POST".toList "/pool/dataset".toList
                (some [("name".toList, .string dataset.ID),
                       ("type".toList, .string dataset.Type_)]) ])
      ∧ (dataset.ID = id → recreatePayload dataset
          = [("name".toList, .string id), ("type".toList, .string dataset.Type_)]) := by
  constructor
  · exact ClearDataset_all_ok h pathEscape unmarshal c sent id b1 b2 b3 dataset
      hget hdec hdel hpost
  · intro hid
    rw [← hid]
    rfl

/-- C3, a concrete run: clearing `tank/a` against a remote that answers every
request with 200 and describes the dataset as `tank/a`, a `VOLUME`. -/
theorem ClearDataset_three_requests_witness :
    ClearDataset (okHTTP "ok".toList) demoEscape
        (fun _ => .ok (mkDataset "tank/a".toList "tank".toList "VOLUME".toList))
        demoClient [] "tank/a".toList
      = (none,
          [ mkRequest demoClient "GET".toList "/pool/dataset/id/tank%2Fa".toList none,
            mkRequest demoClient "DELETE".toList "/pool/dataset/id/tank%2Fa".toList
              (some [("recursive".toList, .bool true), ("force".toList, .bool true)]),
            mkRequest demoClient "POST".toList "/pool/dataset".toList
              (some [("name".toList, .string "tank/a".toList),
                     ("type".toList, .string "VOLUME".toList)]) ]) :=
  (ClearDataset_three_requests (okHTTP "ok".toList) demoEscape
    (fun _ => .ok (mkDataset "tank/a".toList "tank".toList "VOLUME".toList))
    demoClient [] "tank/a".toList "ok".toList "ok".toList "ok".toList
    (mkDataset "tank/a".toList "tank".toList "VOLUME".toList)
    (by decide) rfl (by decide) (by decide)).1

/-- C3 as stated fails when the remote describes the dataset under another ID:
all three requests succeed, and the POST recreates `other`, not the `tank/a`
that was passed in. -/
theorem ClearDataset_name_counterexample :
    ClearDataset (okHTTP "ok".toList) demoEscape
        (fun _ => .ok (mkDataset "other".toList "tank".toList "VOLUME".toList))
        demoClient [] "tank/a".toList
      = (none,
          [ mkRequest demoClient "GET".toList "/pool/dataset/id/tank%2Fa".toList none,
            mkRequest demoClient "DELETE".toList "/pool/dataset/id/tank%2Fa".toList
              (some deleteBody),
            mkRequest demoClient "POST".toList "/pool/dataset".toList
              (some [("name".toList, .string "other".toList),
                     ("type".toList, .string "VOLUME".toList)]) ])
      ∧ "other".toList ≠ "tank/a".toList := by
  decide

/-- A failed GET ends `ClearDataset` with the error of the first step. -/
theorem ClearDataset_get_failed (h : HTTP) (pathEscape : GoString → GoString)
    (unmarshal : GoString → Except GoString Dataset) (c : Client) (sent : List Request)
    (id e : GoString)
    (hget : (doRequest h c sent "GET".toList (datasetEndpoint pathEscape id) none).1
      = .error e) :
    ClearDataset h pathEscape unmarshal c sent id
      = (some ("failed to get dataset info: ".toList ++ e),
          (doRequest h c sent "GET".toList (datasetEndpoint pathEscape id) none).2) := by
  unfold datasetEndpoint at hget ⊢
  unfold ClearDataset
  dsimp only
  generalize doRequest h c sent "GET".toList ("/pool/dataset/id/".toList ++ pathEscape id) none
    = g at hget ⊢
  obtain ⟨r, s⟩ := g
  dsimp only at hget
  subst hget
  rfl

/-- An undecodable GET body ends `ClearDataset` after the first request. -/
theorem ClearDataset_unmarshal_failed (h : HTTP) (pathEscape : GoString → GoString)
    (unmarshal : GoString → Except GoString Dataset) (c : Client) (sent : List Request)
    (id b e : GoString)
    (hget : (doRequest h c sent "GET".toList (datasetEndpoint pathEscape id) none).1 = .ok b)
    (hdec : unmarshal b = .error e) :
    ClearDataset h pathEscape unmarshal c sent id
      = (some ("failed to unmarshal dataset: ".toList ++ e),
          sent ++ [mkRequest c "GET".toList (datasetEndpoint pathEscape id) none]) := by
  have e1 := doRequest_ok_sent _ _ _ _ _ _ _ hget
  unfold datasetEndpoint at e1 ⊢
  unfold ClearDataset
  dsimp only
  rw [e1]
  dsimp only
  rw [hdec]

/-- A failed DELETE ends `ClearDataset` with the error of the second step. -/
theorem ClearDataset_delete_failed (h : HTTP) (pathEscape : GoString → GoString)
    (unmarshal : GoString → Except GoString Dataset) (c : Client) (sent : List Request)
    (id b e : GoString) (dataset : Dataset)
    (hget : (doRequest h c sent "GET".toList (datasetEndpoint pathEscape id) none).1 = .ok b)
    (hdec : unmarshal b = .ok dataset)
    (hdel : (doRequest h c
        (sent ++ [mkRequest c "GET".toList (datasetEndpoint pathEscape id) none])
        "DELETE".toList (datasetEndpoint pathEscape id) (some deleteBody)).1 = .error e) :
    ClearDataset h pathEscape unmarshal c sent id
      = (some ("failed to delete dataset: ".toList ++ e),
          (doRequest h c
            (sent ++ [mkRequest c "GET".toList (datasetEndpoint pathEscape id) none])
            "DELETE".toList (datasetEndpoint pathEscape id) (some deleteBody)).2) := by
  have e1 := doRequest_ok_sent _ _ _ _ _ _ _ hget
  unfold datasetEndpoint at e1 hdel ⊢
  unfold ClearDataset
  dsimp only
  rw [e1]
  dsimp only
  rw [hdec]
  dsimp only
  generalize doRequest h c
    (sent ++ [mkRequest c "GET".toList ("/pool/dataset/id/".toList ++ pathEscape id) none])
    "DELETE".toList ("/pool/dataset/id/".toList ++ pathEscape id) (some deleteBody)
    = g at hdel ⊢
  obtain ⟨r, s⟩ := g
  dsimp only at hdel
  subst hdel
  rfl

/-- A failed POST ends `ClearDataset` with the error of the third step. -/
theorem ClearDataset_recreate_failed (h : HTTP) (pathEscape : GoString → GoString)
    (unmarshal : GoString → Except GoString Dataset) (c : Client) (sent : List Request)
    (id b b2 e : GoString) (dataset : Dataset)
    (hget : (doRequest h c sent "GET".toList (datasetEndpoint pathEscape id) none).1 = .ok b)
    (hdec : unmarshal b = .ok dataset)
    (hdel : (doRequest h c
        (sent ++ [mkRequest c "GET".toList (datasetEndpoint pathEscape id) none])
        "DELETE".toList (datasetEndpoint pathEscape id) (some deleteBody)).1 = .ok b2)
    (hpost : (doRequest h c
        (sent ++ [mkRequest c "GET".toList (datasetEndpoint pathEscape id) none]
          ++ [mkRequest c "DELETE".toList (datasetEndpoint pathEscape id) (some deleteBody)])
        "POST".toList "/pool/dataset".toList (some (recreatePayload dataset))).1 = .error e) :
    ClearDataset h pathEscape unmarshal c sent id
      = (some ("failed to recreate dataset: ".toList ++ e),
          (doRequest h c
            (sent ++ [mkRequest c "GET".toList (datasetEndpoint pathEscape id) none]
              ++ [mkRequest c "DELETE".toList (datasetEndpoint pathEscape id) (some deleteBody)])
            "POST".toList "/pool/dataset".toList (some (recreatePayload dataset))).2) := by
  have e1 := doRequest_ok_sent _ _ _ _ _ _ _ hget
  have e2 := doRequest_ok_sent _ _ _ _ _ _ _ hdel
  unfold datasetEndpoint at e1 e2 hpost ⊢
  unfold ClearDataset
  dsimp only
  rw [e1]
  dsimp only
  rw [hdec]
  dsimp only
  rw [e2]
  dsimp only
  generalize doRequest h c
    (sent ++ [mkRequest c "GET".toList ("/pool/dataset/id/".toList ++ pathEscape id) none]
      ++ [mkRequest c "DELETE".toList ("/pool/dataset/id/".toList ++ pathEscape id)
            (some deleteBody)])
    "POST".toList "/pool/dataset".toList (some (recreatePayload dataset))
    = g at hpost ⊢
  obtain ⟨r, s⟩ := g
  dsimp only at hpost
  subst hpost
  rfl

/-- C4: `ClearDataset` stops at the first step that fails.  A failed GET gives
`failed to get dataset info`, with at most the GET sent; an undecodable GET
body gives `failed to unmarshal dataset`, with only the GET sent; a failed
DELETE gives `failed to delete dataset`, with no POST sent; a failed POST gives
`failed to recreate dataset`, with nothing sent after it; and the result is nil
exactly when the three requests succeeded and the GET body was decodable. -/
theorem ClearDataset_stops_at_first_failure (h : HTTP) (pathEscape : GoString → GoString)
    (unmarshal : GoString → Except GoString Dataset) (c : Client) (sent : List Request)
    (id : GoString) :
    (∀ e, (clearGet h pathEscape c sent id).1 = .error e →
        ClearDataset h pathEscape unmarshal c sent id
            = (some ("failed to get dataset info: ".toList ++ e),
                (clearGet h pathEscape c sent id).2)
          ∧ ((clearGet h pathEscape c sent id).2 = sent
              ∨ (clearGet h pathEscape c sent id).2 = sent ++ [clearGetReq c pathEscape id]))
      ∧ (∀ b e, (clearGet h pathEscape c sent id).1 = .ok b → unmarshal b = .error e →
          ClearDataset h pathEscape unmarshal c sent id
            = (some ("failed to unmarshal dataset: ".toList ++ e),
                sent ++ [clearGetReq c pathEscape id]))
      ∧ (∀ b dataset e, (clearGet h pathEscape c sent id).1 = .ok b →
          unmarshal b = .ok dataset →
          (clearDelete h pathEscape c sent id).1 = .error e →
          ClearDataset h pathEscape unmarshal c sent id
              = (some ("failed to delete dataset: ".toList ++ e),
                  (clearDelete h pathEscape c sent id).2)
            ∧ ((clearDelete h pathEscape c sent id).2 = sent ++ [clearGetReq c pathEscape id]
                ∨ (clearDelete h pathEscape c sent id).2
                    = sent ++ [clearGetReq c pathEscape id, clearDeleteReq c pathEscape id]))
      ∧ (∀ b dataset b2 e, (clearGet h pathEscape c sent id).1 = .ok b →
          unmarshal b = .ok dataset →
          (clearDelete h pathEscape c sent id).1 = .ok b2 →
          (clearPost h pathEscape c sent id dataset).1 = .error e →
          ClearDataset h pathEscape unmarshal c sent id
              = (some ("failed to recreate dataset: ".toList ++ e),
                  (clearPost h pathEscape c sent id dataset).2)
            ∧ ((clearPost h pathEscape c sent id dataset).2
                    = sent ++ [clearGetReq c pathEscape id, clearDeleteReq c pathEscape id]
                ∨ (clearPost h pathEscape c sent id dataset).2
                    = sent ++ [clearGetReq c pathEscape id, clearDeleteReq c pathEscape id,
                        clearPostReq c dataset]))
      ∧ ((ClearDataset h pathEscape unmarshal c sent id).1 = none ↔
          ∃ b dataset b2 b3, (clearGet h pathEscape c sent id).1 = .ok b
            ∧ unmarshal b = .ok dataset
            ∧ (clearDelete h pathEscape c sent id).1 = .ok b2
            ∧ (clearPost h pathEscape c sent id dataset).1 = .ok b3) := by
  have hG : ∀ e, (clearGet h pathEscape c sent id).1 = .error e →
      ClearDataset h pathEscape unmarshal c sent id
        = (some ("failed to get dataset info: ".toList ++ e),
            (clearGet h pathEscape c sent id).2) :=
    fun e he => ClearDataset_get_failed h pathEscape unmarshal c sent id e he
  have hU : ∀ b e, (clearGet h pathEscape c sent id).1 = .ok b → unmarshal b = .error e →
      ClearDataset h pathEscape unmarshal c sent id
        = (some ("failed to unmarshal dataset: ".toList ++ e),
            sent ++ [clearGetReq c pathEscape id]) :=
    fun b e hb he => ClearDataset_unmarshal_failed h pathEscape unmarshal c sent id b e hb he
  have hD : ∀ b dataset e, (clearGet h pathEscape c sent id).1 = .ok b →
      unmarshal b = .ok dataset →
      (clearDelete h pathEscape c sent id).1 = .error e →
      ClearDataset h pathEscape unmarshal c sent id
        = (some ("failed to delete dataset: ".toList ++ e),
            (clearDelete h pathEscape c sent id).2) :=
    fun b ds e hb hd he =>
      ClearDataset_delete_failed h pathEscape unmarshal c sent id b e ds hb hd he
  have hP : ∀ b dataset b2 e, (clearGet h pathEscape c sent id).1 = .ok b →
      unmarshal b = .ok dataset →
      (clearDelete h pathEscape c sent id).1 = .ok b2 →
      (clearPost h pathEscape c sent id dataset).1 = .error e →
      ClearDataset h pathEscape unmarshal c sent id
        = (some ("failed to recreate dataset: ".toList ++ e),
            (clearPost h pathEscape c sent id dataset).2) :=
    fun b ds b2 e hb hd h2 he =>
      ClearDataset_recreate_failed h pathEscape unmarshal c sent id b b2 e ds hb hd h2 he
  refine ⟨fun e he => ⟨hG e he, ?_⟩, hU, fun b ds e hb hd he => ⟨hD b ds e hb hd he, ?_⟩,
    fun b ds b2 e hb hd h2 he => ⟨hP b ds b2 e hb hd h2 he, ?_⟩, ?_⟩
  · exact doRequest_sent_cases h c sent _ _ _
  · have := doRequest_sent_cases h c (sent ++ [clearGetReq c pathEscape id]) "DELETE".toList
      (datasetEndpoint pathEscape id) (some deleteBody)
    rw [List.append_assoc] at this
    exact this
  · rcases doRequest_sent_cases h c
      (sent ++ [clearGetReq c pathEscape id] ++ [clearDeleteReq c pathEscape id])
      "POST".toList "/pool/dataset".toList (some (recreatePayload ds)) with h1 | h1
    · exact Or.inl (h1.trans (List.append_assoc _ _ _))
    · exact Or.inr (h1.trans (by rw [List.append_assoc, List.append_assoc]; rfl))
  · constructor
    · intro hnil
      cases hg : (clearGet h pathEscape c sent id).1 with
      | error e => rw [hG e hg] at hnil; cases hnil
      | ok b =>
        cases hu : unmarshal b with
        | error e => rw [hU b e hg hu] at hnil; cases hnil
        | ok ds =>
          cases hd : (clearDelete h pathEscape c sent id).1 with
          | error e => rw [hD b ds e hg hu hd] at hnil; cases hnil
          | ok b2 =>
            cases hp : (clearPost h pathEscape c sent id ds).1 with
            | error e => rw [hP b ds b2 e hg hu hd hp] at hnil; cases hnil
            | ok b3 => exact ⟨b, ds, b2, b3, rfl, hu, rfl, hp⟩
    · rintro ⟨b, ds, b2, b3, hg, hu, hd, hp⟩
      rw [ClearDataset_all_ok h pathEscape unmarshal c sent id b b2 b3 ds hg hu hd hp]

/-- C4, a concrete run: the remote answers the GET and the DELETE with 200 and
the POST with 500; the error names the third step and three requests, the last
of them the POST, were sent. -/
theorem ClearDataset_stops_at_first_failure_witness :
    ClearDataset (failAfterHTTP 2 "ok".toList) demoEscape
        (fun _ => .ok (mkDataset "tank/a".toList "tank".toList "VOLUME".toList))
        demoClient [] "tank/a".toList
      = (some "failed to recreate dataset: API request failed with status 500: ok".toList,
          [ clearGetReq demoClient demoEscape "tank/a".toList,
            clearDeleteReq demoClient demoEscape "tank/a".toList,
            clearPostReq demoClient
              (mkDataset "tank/a".toList "tank".toList "VOLUME".toList) ]) :=
  ((ClearDataset_stops_at_first_failure (failAfterHTTP 2 "ok".toList) demoEscape
    (fun _ => .ok (mkDataset "tank/a".toList "tank".toList "VOLUME".toList))
    demoClient [] "tank/a".toList).2.2.2.1 "ok".toList
    (mkDataset "tank/a".toList "tank".toList "VOLUME".toList) "ok".toList
    "API request failed with status 500: ok".toList
    (by decide) rfl (by decide) (by decide)).1.trans (by decide)

/-! ## Client resolution -/

/-- C9 (as amended): in each of the four commands, when both `--server` and
`--token` are given (non-empty), the client has the flag values as base URL and
API key, whatever the environment holds. -/
theorem flags_override_env (server token : GoString) (env : Env)
    (hs : server ≠ []) (ht : token ≠ []) :
    addClient server token env = .ok { baseURL := server, apiKey := token }
      ∧ listClient server token env = .ok { baseURL := server, apiKey := token }
      ∧ removeClient server token env = .ok { baseURL := server, apiKey := token }
      ∧ clearClient server token env = .ok { baseURL := server, apiKey := token } := by
  have hp : NewClientWithParams server token = .ok { baseURL := server, apiKey := token } := by
    unfold NewClientWithParams
    rw [if_neg hs, if_neg ht]
  unfold addClient listClient removeClient clearClient
  rw [if_pos ⟨hs, ht⟩, hp]
  exact ⟨rfl, rfl, rfl, rfl⟩

/-- C9, a concrete run: both flags given with both environment variables set. -/
theorem flags_override_env_witness :
    addClient "https://flag".toList "flagkey".toList demoEnv
        = .ok { baseURL := "https://flag".toList, apiKey := "flagkey".toList }
      ∧ listClient "https://flag".toList "flagkey".toList demoEnv
        = .ok { baseURL := "https://flag".toList, apiKey := "flagkey".toList }
      ∧ removeClient "https://flag".toList "flagkey".toList demoEnv
        = .ok { baseURL := "https://flag".toList, apiKey := "flagkey".toList }
      ∧ clearClient "https://flag".toList "flagkey".toList demoEnv
        = .ok { baseURL := "https://flag".toList, apiKey := "flagkey".toList } :=
  flags_override_env "https://flag".toList "flagkey".toList demoEnv (by decide) (by decide)

/-- When one of the two flags is missing, each command takes the client from the
environment alone. -/
theorem flags_ignored_unless_both (server token : GoString) (env : Env)
    (hmiss : server = [] ∨ token = []) :
    addClient server token env = NewClient env
      ∧ listClient server token env = NewClient env
      ∧ removeClient server token env = NewClient env
      ∧ clearClient server token env = NewClient env := by
  have hn : ¬ (server ≠ [] ∧ token ≠ []) := by tauto
  unfold addClient listClient removeClient clearClient
  rw [if_neg hn]
  exact ⟨rfl, rfl, rfl, rfl⟩

/-- C9 as stated fails when `--server` is given without `--token`: the base URL
of the client is the one of the environment, not the flag value. -/
theorem server_flag_alone_counterexample :
    listClient "https://flag".toList [] demoEnv
        = .ok { baseURL := "https://env".toList, apiKey := "envkey".toList }
      ∧ addClient "https://flag".toList [] demoEnv
        = .ok { baseURL := "https://env".toList, apiKey := "envkey".toList }
      ∧ "https://env".toList ≠ "https://flag".toList := by
  decide

/-! ## The confirmation gate of remove and clear -/

/-- Without the force flag and without a confirming answer `removeCmd.RunE`
prints the cancellation and returns nil, with nothing sent. -/
theorem removeRunE_cancelled (h : HTTP) (toLower trimSpace pathEscape : GoString → GoString)
    (env : Env) (server token : GoString) (force : Bool) (line : GoString)
    (sent : List Request) (name : GoString)
    (hno : ¬ confirms toLower trimSpace force line) :
    removeRunE h toLower trimSpace pathEscape env server token force
        (.ok (line ++ "\n".toList)) sent name
      = { stdout := ["WARNING: This will permanently DELETE dataset '".toList ++ name
              ++ "' and all its data\n".toList, "Are you sure? (y/n): ".toList,
            "Operation cancelled\n".toList],
          err := none, sent := sent, invoked := false } := by
  unfold confirms at hno
  push_neg at hno
  obtain ⟨hf, hy, hyes⟩ := hno
  have hf' : force = false := by simpa using hf
  subst hf'
  unfold removeRunE
  dsimp only
  rw [if_pos (by decide), if_pos ⟨hy, hyes⟩]
  rfl

/-- With the force flag or a confirming answer `removeCmd.RunE` goes on to
resolve the client and call `DeleteDataset`. -/
theorem removeRunE_confirmed (h : HTTP) (toLower trimSpace pathEscape : GoString → GoString)
    (env : Env) (server token : GoString) (force : Bool) (line : GoString)
    (sent : List Request) (name : GoString)
    (hyes : confirms toLower trimSpace force line) :
    removeRunE h toLower trimSpace pathEscape env server token force
        (.ok (line ++ "\n".toList)) sent name
      = removeProceed h pathEscape env server token sent
          (if force then [] else
            ["WARNING: This will permanently DELETE dataset '".toList ++ name
              ++ "' and all its data\n".toList, "Are you sure? (y/n): ".toList]) name := by
  unfold removeRunE
  cases force with
  | true => rfl
  | false =>
    have hy : ¬ (trimSpace (toLower (line ++ "\n".toList)) ≠ "y".toList
        ∧ trimSpace (toLower (line ++ "\n".toList)) ≠ "yes".toList) := by
      unfold confirms at hyes
      rcases hyes with h1 | h1 | h1
      · cases h1
      · exact fun hh => hh.1 h1
      · exact fun hh => hh.2 h1
    dsimp only
    rw [if_pos (by decide), if_neg hy]
    rfl

/-- After the gate `removeCmd.RunE` reaches `DeleteDataset` exactly when the
client can be resolved; its requests and its error are then those of the call. -/
theorem removeProceed_spec (h : HTTP) (pathEscape : GoString → GoString) (env : Env)
    (server token : GoString) (sent : List Request) (out : List GoString) (name : GoString) :
    ((removeProceed h pathEscape env server token sent out name).invoked = true
        ↔ ∃ c, removeClient server token env = .ok c)
      ∧ (∀ e, removeClient server token env = .error e →
          removeProceed h pathEscape env server token sent out name
            = { stdout := out, err := some ("failed to create TrueNAS client: ".toList ++ e),
                sent := sent, invoked := false })
      ∧ (∀ c, removeClient server token env = .ok c →
          (removeProceed h pathEscape env server token sent out name).sent
              = (DeleteDataset h pathEscape c sent name).2
            ∧ (removeProceed h pathEscape env server token sent out name).err
              = (DeleteDataset h pathEscape c sent name).1.map
                  (fun e => "failed to delete dataset: ".toList ++ e)) := by
  unfold removeProceed
  cases hc : removeClient server token env with
  | error e =>
    refine ⟨⟨fun hh => (by cases hh), fun ⟨c, hc'⟩ => (by cases hc')⟩, fun e' he => ?_,
      fun c hc' => (by cases hc')⟩
    cases he
    rfl
  | ok c =>
    refine ⟨⟨fun _ => ⟨c, rfl⟩, fun _ => ?_⟩, fun e he => (by cases he), fun c' hc' => ?_⟩
    · dsimp only
      rcases DeleteDataset h pathEscape c sent name with ⟨_ | e, s1⟩ <;> rfl
    · cases hc'
      dsimp only
      rcases DeleteDataset h pathEscape c sent name with ⟨_ | e, s1⟩ <;> exact ⟨rfl, rfl⟩

/-- Without the force flag and without a confirming answer `clearCmd.RunE`
prints the cancellation and returns nil, with nothing sent. -/
theorem clearRunE_cancelled (h : HTTP) (toLower trimSpace pathEscape : GoString → GoString)
    (unmarshal : GoString → Except GoString Dataset) (env : Env) (server token : GoString) (force : Bool) (line : GoString)
    (sent : List Request) (name : GoString)
    (hno : ¬ confirms toLower trimSpace force line) :
    clearRunE h toLower trimSpace pathEscape unmarshal env server token force
        (.ok (line ++ "\n".toList)) sent name
      = { stdout := ["WARNING: This will DELETE ALL DATA in dataset '".toList ++ name
              ++ "'\n".toList, "Are you sure? (y/n): ".toList,
            "Operation cancelled\n".toList],
          err := none, sent := sent, invoked := false } := by
  unfold confirms at hno
  push_neg at hno
  obtain ⟨hf, hy, hyes⟩ := hno
  have hf' : force = false := by simpa using hf
  subst hf'
  unfold clearRunE
  dsimp only
  rw [if_pos (by decide), if_pos ⟨hy, hyes⟩]
  rfl

/-- With the force flag or a confirming answer `clearCmd.RunE` goes on to
resolve the client and call `ClearDataset`. -/
theorem clearRunE_confirmed (h : HTTP) (toLower trimSpace pathEscape : GoString → GoString)
    (unmarshal : GoString → Except GoString Dataset) (env : Env) (server token : GoString) (force : Bool) (line : GoString)
    (sent : List Request) (name : GoString)
    (hyes : confirms toLower trimSpace force line) :
    clearRunE h toLower trimSpace pathEscape unmarshal env server token force
        (.ok (line ++ "\n".toList)) sent name
      = clearProceed h pathEscape unmarshal env server token sent
          (if force then [] else
            ["WARNING: This will DELETE ALL DATA in dataset '".toList ++ name
              ++ "'\n".toList, "Are you sure? (y/n): ".toList]) name := by
  unfold clearRunE
  cases force with
  | true => rfl
  | false =>
    have hy : ¬ (trimSpace (toLower (line ++ "\n".toList)) ≠ "y".toList
        ∧ trimSpace (toLower (line ++ "\n".toList)) ≠ "yes".toList) := by
      unfold confirms at hyes
      rcases hyes with h1 | h1 | h1
      · cases h1
      · exact fun hh => hh.1 h1
      · exact fun hh => hh.2 h1
    dsimp only
    rw [if_pos (by decide), if_neg hy]
    rfl

/-- After the gate `clearCmd.RunE` reaches `ClearDataset` exactly when the
client can be resolved; its requests and its error are then those of the call. -/
theorem clearProceed_spec (h : HTTP) (pathEscape : GoString → GoString)
    (unmarshal : GoString → Except GoString Dataset) (env : Env)
    (server token : GoString) (sent : List Request) (out : List GoString) (name : GoString) :
    ((clearProceed h pathEscape unmarshal env server token sent out name).invoked = true
        ↔ ∃ c, clearClient server token env = .ok c)
      ∧ (∀ e, clearClient server token env = .error e →
          clearProceed h pathEscape unmarshal env server token sent out name
            = { stdout := out, err := some ("failed to create TrueNAS client: ".toList ++ e),
                sent := sent, invoked := false })
      ∧ (∀ c, clearClient server token env = .ok c →
          (clearProceed h pathEscape unmarshal env server token sent out name).sent
              = (ClearDataset h pathEscape unmarshal c sent name).2
            ∧ (clearProceed h pathEscape unmarshal env server token sent out name).err
              = (ClearDataset h pathEscape unmarshal c sent name).1.map
                  (fun e => "failed to clear dataset: ".toList ++ e)) := by
  unfold clearProceed
  cases hc : clearClient server token env with
  | error e =>
    refine ⟨⟨fun hh => (by cases hh), fun ⟨c, hc'⟩ => (by cases hc')⟩, fun e' he => ?_,
      fun c hc' => (by cases hc')⟩
    cases he
    rfl
  | ok c =>
    refine ⟨⟨fun _ => ⟨c, rfl⟩, fun _ => ?_⟩, fun e he => (by cases he), fun c' hc' => ?_⟩
    · dsimp only
      rcases ClearDataset h pathEscape unmarshal c sent name with ⟨_ | e, s1⟩ <;> rfl
    · cases hc'
      dsimp only
      rcases ClearDataset h pathEscape unmarshal c sent name with ⟨_ | e, s1⟩ <;> exact ⟨rfl, rfl⟩

/-- C5 (as amended): for the remove and the clear command, every force flag and
every newline-terminated line read from standard input: the client operation
(`DeleteDataset`, resp. `ClearDataset`) is reached exactly when the force flag
is set or the line, lowercased and trimmed, is `y` or `yes`, and the client can
be resolved; its requests and error are then those of the command.  Any other
line makes the command print `Operation cancelled` and return nil with nothing
sent.  With the force flag set the outcome is the same whatever standard input
gives. -/
theorem confirmation_gate (h : HTTP) (toLower trimSpace pathEscape : GoString → GoString)
    (unmarshal : GoString → Except GoString Dataset) (env : Env) (server token : GoString)
    (force : Bool) (line : GoString) (sent : List Request) (name : GoString) :
    (((removeRunE h toLower trimSpace pathEscape env server token force
          (.ok (line ++ "\n".toList)) sent name).invoked = true
        ↔ (confirms toLower trimSpace force line ∧ ∃ c, removeClient server token env = .ok c))
      ∧ (¬ confirms toLower trimSpace force line →
          removeRunE h toLower trimSpace pathEscape env server token force
              (.ok (line ++ "\n".toList)) sent name
            = { stdout := ["WARNING: This will permanently DELETE dataset '".toList ++ name
                    ++ "' and all its data\n".toList, "Are you sure? (y/n): ".toList,
                  "Operation cancelled\n".toList],
                err := none, sent := sent, invoked := false })
      ∧ (confirms toLower trimSpace force line → ∀ c, removeClient server token env = .ok c →
          (removeRunE h toLower trimSpace pathEscape env server token force
              (.ok (line ++ "\n".toList)) sent name).sent
              = (DeleteDataset h pathEscape c sent name).2
            ∧ (removeRunE h toLower trimSpace pathEscape env server token force
              (.ok (line ++ "\n".toList)) sent name).err
              = (DeleteDataset h pathEscape c sent name).1.map
                  (fun e => "failed to delete dataset: ".toList ++ e))
      ∧ (∀ r1 r2, removeRunE h toLower trimSpace pathEscape env server token true r1 sent name
          = removeRunE h toLower trimSpace pathEscape env server token true r2 sent name))
    ∧ (((clearRunE h toLower trimSpace pathEscape unmarshal env server token force
          (.ok (line ++ "\n".toList)) sent name).invoked = true
        ↔ (confirms toLower trimSpace force line ∧ ∃ c, clearClient server token env = .ok c))
      ∧ (¬ confirms toLower trimSpace force line →
          clearRunE h toLower trimSpace pathEscape unmarshal env server token force
              (.ok (line ++ "\n".toList)) sent name
            = { stdout := ["WARNING: This will DELETE ALL DATA in dataset '".toList ++ name
                    ++ "'\n".toList, "Are you sure? (y/n): ".toList,
                  "Operation cancelled\n".toList],
                err := none, sent := sent, invoked := false })
      ∧ (confirms toLower trimSpace force line → ∀ c, clearClient server token env = .ok c →
          (clearRunE h toLower trimSpace pathEscape unmarshal env server token force
              (.ok (line ++ "\n".toList)) sent name).sent
              = (ClearDataset h pathEscape unmarshal c sent name).2
            ∧ (clearRunE h toLower trimSpace pathEscape unmarshal env server token force
              (.ok (line ++ "\n".toList)) sent name).err
              = (ClearDataset h pathEscape unmarshal c sent name).1.map
                  (fun e => "failed to clear dataset: ".toList ++ e))
      ∧ (∀ r1 r2,
          clearRunE h toLower trimSpace pathEscape unmarshal env server token true r1 sent name
          = clearRunE h toLower trimSpace pathEscape unmarshal env server token true r2 sent
              name)) := by
  constructor
  · refine ⟨?_, removeRunE_cancelled h toLower trimSpace pathEscape env server token force
      line sent name, fun hy c hc => ?_, fun r1 r2 => rfl⟩
    · by_cases hy : confirms toLower trimSpace force line
      · rw [removeRunE_confirmed h toLower trimSpace pathEscape env server token force
          line sent name hy, (removeProceed_spec h pathEscape env server token sent _ name).1]
        exact ⟨fun hc => ⟨hy, hc⟩, fun hc => hc.2⟩
      · rw [removeRunE_cancelled h toLower trimSpace pathEscape env server token force
          line sent name hy]
        exact ⟨fun hc => (by cases hc), fun hc => absurd hc.1 hy⟩
    · rw [removeRunE_confirmed h toLower trimSpace pathEscape env server token force
        line sent name hy]
      exact (removeProceed_spec h pathEscape env server token sent _ name).2.2 c hc
  · refine ⟨?_, clearRunE_cancelled h toLower trimSpace pathEscape unmarshal env server token
      force line sent name, fun hy c hc => ?_, fun r1 r2 => rfl⟩
    · by_cases hy : confirms toLower trimSpace force line
      · rw [clearRunE_confirmed h toLower trimSpace pathEscape unmarshal env server token force
          line sent name hy,
          (clearProceed_spec h pathEscape unmarshal env server token sent _ name).1]
        exact ⟨fun hc => ⟨hy, hc⟩, fun hc => hc.2⟩
      · rw [clearRunE_cancelled h toLower trimSpace pathEscape unmarshal env server token force
          line sent name hy]
        exact ⟨fun hc => (by cases hc), fun hc => absurd hc.1 hy⟩
    · rw [clearRunE_confirmed h toLower trimSpace pathEscape unmarshal env server token force
        line sent name hy]
      exact (clearProceed_spec h pathEscape unmarshal env server token sent _ name).2.2 c hc

/-- C5, a concrete run: without the force flag the answer `YES` followed by a
blank reaches `DeleteDataset`, which sends its DELETE request; the answer `n`
cancels with nothing sent. -/
theorem confirmation_gate_witness :
    removeRunE (okHTTP "ok".toList) demoLower demoTrim demoEscape demoEnv [] [] false
        (.ok "YES \n".toList) [] "tank/a".toList
      = { stdout := ["WARNING: This will permanently DELETE dataset 'tank/a' and all its data\n".toList,
            "Are you sure? (y/n): ".toList, "Successfully removed dataset 'tank/a'\n".toList],
          err := none,
          sent := [mkRequest { baseURL := "https://env".toList, apiKey := "envkey".toList }
            "DELETE".toList "/pool/dataset/id/tank%2Fa".toList none],
          invoked := true }
      ∧ removeRunE (okHTTP "ok".toList) demoLower demoTrim demoEscape demoEnv [] [] false
        (.ok "n\n".toList) [] "tank/a".toList
      = { stdout := ["WARNING: This will permanently DELETE dataset 'tank/a' and all its data\n".toList,
            "Are you sure? (y/n): ".toList, "Operation cancelled\n".toList],
          err := none, sent := [], invoked := false } :=
  ⟨by decide,
   (confirmation_gate (okHTTP "ok".toList) demoLower demoTrim demoEscape
      (fun _ => .ok (mkDataset [] [] [])) demoEnv [] [] false "n".toList []
      "tank/a".toList).1.2.1 (by decide)⟩

/-- C5 as stated fails when no client can be resolved: with the force flag set,
no server or token flag and an empty environment, neither command reaches its
client operation. -/
theorem forced_without_client_counterexample :
    removeRunE (okHTTP "ok".toList) demoLower demoTrim demoEscape emptyEnv [] [] true
        (.ok "y\n".toList) [] "tank/a".toList
      = { stdout := [],
          err := some ("failed to create TrueNAS client: "
            ++ "TRUENAS_URL environment variable not set").toList,
          sent := [], invoked := false }
      ∧ (clearRunE (okHTTP "ok".toList) demoLower demoTrim demoEscape
          (fun _ => .ok (mkDataset [] [] [])) emptyEnv [] [] true
          (.ok "y\n".toList) [] "tank/a".toList).invoked = false := by
  decide

/-! ## The configuration file: lines and key-value pairs -/

/-- Reading a key just written gives the value written. -/
theorem GoMap.get_set_self {α : Type} (m : GoMap α) (k : GoString) (v : α) :
    (m.set k v).get k = some v := by
  induction m with
  | nil => simp [GoMap.set, GoMap.get]
  | cons p rest ih =>
    obtain ⟨k', v'⟩ := p
    unfold GoMap.set
    by_cases hk : k' = k
    · rw [if_pos hk]; simp [GoMap.get]
    · rw [if_neg hk]; unfold GoMap.get; rw [if_neg hk]; exact ih

/-- Writing one key leaves the value of every other key as it was. -/
theorem GoMap.get_set_ne {α : Type} (m : GoMap α) (k k' : GoString) (v : α) (hne : k' ≠ k) :
    (m.set k v).get k' = m.get k' := by
  induction m with
  | nil =>
    unfold GoMap.set GoMap.get
    rw [if_neg (fun h => hne h.symm)]
    rfl
  | cons p rest ih =>
    obtain ⟨k1, v1⟩ := p
    unfold GoMap.set
    by_cases hk : k1 = k
    · rw [if_pos hk]
      unfold GoMap.get
      rw [if_neg (fun h => hne h.symm), if_neg (fun h => hne (h.symm.trans hk))]
    · rw [if_neg hk]
      unfold GoMap.get
      by_cases hk' : k1 = k'
      · rw [if_pos hk', if_pos hk']
      · rw [if_neg hk', if_neg hk']; exact ih

/-- The lines already collected stay in front of what the loop of `splitLines`
adds. -/
theorem splitLinesLoop_acc (s : List Char) (lines : List GoString) (line : GoString) :
    splitLinesLoop s lines line
      = (lines ++ (splitLinesLoop s [] line).1, (splitLinesLoop s [] line).2) := by
  induction s generalizing lines line with
  | nil => simp [splitLinesLoop]
  | cons c rest ih =>
    unfold splitLinesLoop
    by_cases hc : c = '\n'
    · rw [if_pos hc, if_pos hc, ih (lines ++ [line]) [], ih ([] ++ [line]) []]
      simp
    · rw [if_neg hc, if_neg hc, ih lines (line ++ [c])]

/-- Characters other than the newline are added to the current line. -/
theorem splitLinesLoop_append (l rest : List Char) (lines : List GoString) (line : GoString)
    (hl : '\n' ∉ l) :
    splitLinesLoop (l ++ rest) lines line = splitLinesLoop rest lines (line ++ l) := by
  induction l generalizing line with
  | nil => simp
  | cons c l' ih =>
    have hc : c ≠ '\n' := fun h => hl (by simp [h])
    have hl' : '\n' ∉ l' := fun h => hl (by simp [h])
    have step : splitLinesLoop (c :: (l' ++ rest)) lines line
        = splitLinesLoop (l' ++ rest) lines (line ++ [c]) := by
      rw [splitLinesLoop, if_neg hc]
    rw [List.cons_append, step, ih (line ++ [c]) hl']
    simp

/-- The text before the first newline is the first line. -/
theorem splitLines_line (l rest : List Char) (hl : '\n' ∉ l) :
    splitLines (l ++ '\n' :: rest) = l :: splitLines rest := by
  unfold splitLines
  rw [splitLinesLoop_append l _ [] [] hl]
  have h1 : splitLinesLoop ('\n' :: rest) [] ([] ++ l) = splitLinesLoop rest ([] ++ [[] ++ l]) [] := by
    rw [splitLinesLoop]
    rw [if_pos rfl]
  rw [h1, splitLinesLoop_acc rest ([] ++ [[] ++ l]) []]
  dsimp only
  by_cases hr : (splitLinesLoop rest [] []).2 ≠ []
  · rw [if_pos hr, if_pos hr]; simp
  · rw [if_neg hr, if_neg hr]; simp

/-- The empty text has no lines. -/
theorem splitLines_nil : splitLines [] = [] := by
  decide

/-- No line that the loop of `splitLines` yields holds a newline. -/
theorem splitLinesLoop_no_newline (s : List Char) (lines : List GoString) (line : GoString)
    (hlines : ∀ l ∈ lines, '\n' ∉ l) (hline : '\n' ∉ line) :
    (∀ l ∈ (splitLinesLoop s lines line).1, '\n' ∉ l) ∧ '\n' ∉ (splitLinesLoop s lines line).2 := by
  induction s generalizing lines line with
  | nil => exact ⟨hlines, hline⟩
  | cons c rest ih =>
    unfold splitLinesLoop
    by_cases hc : c = '\n'
    · rw [if_pos hc]
      apply ih
      · intro l hl
        rcases List.mem_append.mp hl with h1 | h1
        · exact hlines l h1
        · rw [List.mem_singleton.mp h1]; exact hline
      · simp
    · rw [if_neg hc]
      apply ih _ _ hlines
      intro hmem
      rcases List.mem_append.mp hmem with h1 | h1
      · exact hline h1
      · exact hc (List.mem_singleton.mp h1).symm

/-- No line of `splitLines` holds a newline. -/
theorem splitLines_no_newline (s : GoString) : ∀ l ∈ splitLines s, '\n' ∉ l := by
  have h := splitLinesLoop_no_newline s [] [] (by simp) (by simp)
  unfold splitLines
  dsimp only
  by_cases hr : (splitLinesLoop s [] []).2 ≠ []
  · rw [if_pos hr]
    intro l hl
    rcases List.mem_append.mp hl with h1 | h1
    · exact h.1 l h1
    · rw [List.mem_singleton.mp h1]; exact h.2
  · rw [if_neg hr]
    exact h.1

/-- Without an equals sign in what remains, `splitKeyValue` returns the whole
text as the only part. -/
theorem splitKeyValueLoop_none (s : GoString) (i : Nat) (rest : List Char)
    (hr : '=' ∉ rest) : splitKeyValueLoop s i rest = [s] := by
  induction rest generalizing i with
  | nil => rfl
  | cons c r ih =>
    have hc : c ≠ '=' := fun h => hr (by simp [h])
    have hr' : '=' ∉ r := fun h => hr (by simp [h])
    unfold splitKeyValueLoop
    rw [if_neg hc]
    exact ih (i + 1) hr'

/-- The loop of `splitKeyValue` cuts at the first equals sign of what remains. -/
theorem splitKeyValueLoop_cut (pre a b : List Char) (ha : '=' ∉ a) :
    splitKeyValueLoop (pre ++ a ++ '=' :: b) pre.length (a ++ '=' :: b) = [pre ++ a, b] := by
  induction a generalizing pre with
  | nil =>
    rw [List.nil_append, List.append_nil]
    unfold splitKeyValueLoop
    rw [if_pos rfl]
    simp
  | cons c a' ih =>
    have hc : c ≠ '=' := fun h => ha (by simp [h])
    have ha' : '=' ∉ a' := fun h => ha (by simp [h])
    rw [List.cons_append]
    unfold splitKeyValueLoop
    rw [if_neg hc]
    have := ih (pre ++ [c]) ha'
    simp only [List.length_append, List.length_singleton, List.append_assoc,
      List.singleton_append] at this
    simp only [List.append_assoc, List.cons_append]
    exact this

/-- A line `k=v` whose key holds no equals sign is cut into `k` and `v`. -/
theorem splitKeyValue_cut (k v : GoString) (hk : '=' ∉ k) :
    splitKeyValue (k ++ '=' :: v) = [k, v] := by
  have := splitKeyValueLoop_cut [] k v hk
  simpa [splitKeyValue] using this

/-- A text with an equals sign can be cut at the first one. -/
theorem exists_first_eq (s : List Char) (hs : '=' ∈ s) :
    ∃ a b, s = a ++ '=' :: b ∧ '=' ∉ a := by
  induction s with
  | nil => simp at hs
  | cons c r ih =>
    by_cases hc : c = '='
    · exact ⟨[], r, by simp [hc], by simp⟩
    · have hr : '=' ∈ r := by
        rcases List.mem_cons.mp hs with h1 | h1
        · exact absurd h1.symm hc
        · exact h1
      obtain ⟨a, b, hab, ha⟩ := ih hr
      refine ⟨c :: a, b, by simp [hab], ?_⟩
      intro hmem
      rcases List.mem_cons.mp hmem with h1 | h1
      · exact hc h1.symm
      · exact ha h1

/-- When `splitKeyValue` returns two parts, the text is the first part, an equals
sign and the second part, and the first part holds no equals sign. -/
theorem splitKeyValue_two (s k v : GoString) (h : splitKeyValue s = [k, v]) :
    s = k ++ '=' :: v ∧ '=' ∉ k := by
  by_cases hs : '=' ∈ s
  · obtain ⟨a, b, hab, ha⟩ := exists_first_eq s hs
    rw [hab, splitKeyValue_cut a b ha] at h
    have h1 : a = k := by simpa using (List.cons.inj h).1
    have h2 : b = v := by simpa using (List.cons.inj (List.cons.inj h).2).1
    subst h1 h2
    exact ⟨hab, ha⟩
  · unfold splitKeyValue at h
    rw [splitKeyValueLoop_none s 0 s hs] at h
    simp at h

/-- A line sets the pair `(k, v)` exactly when it reads `k=v`, `k` holds no
equals sign, and the line does not start with `#`. -/
theorem parseLine_eq_some (line k v : GoString) :
    parseLine line = some (k, v)
      ↔ (line = k ++ '=' :: v ∧ '=' ∉ k ∧ line.head? ≠ some '#') := by
  constructor
  · intro h
    unfold parseLine at h
    cases line with
    | nil => cases h
    | cons c r =>
      dsimp only at h
      by_cases hc : c ≠ '#'
      · rw [if_pos hc] at h
        have hsplit : splitKeyValue (c :: r) = [k, v] := by
          revert h
          generalize splitKeyValue (c :: r) = parts
          intro h
          match parts, h with
          | [k', v'], h =>
            simp only [Option.some.injEq, Prod.mk.injEq] at h
            rw [h.1, h.2]
        obtain ⟨h1, h2⟩ := splitKeyValue_two _ _ _ hsplit
        refine ⟨h1, h2, ?_⟩
        simpa using hc
      · rw [if_neg hc] at h
        cases h
  · rintro ⟨h1, h2, h3⟩
    have hsplit : splitKeyValue line = [k, v] := by rw [h1]; exact splitKeyValue_cut k v h2
    unfold parseLine
    cases line with
    | nil => simp at h1
    | cons c r =>
      have hc : c ≠ '#' := by simpa using h3
      dsimp only
      rw [if_pos hc, hsplit]

/-- An empty line, a comment line and a line without an equals sign set nothing. -/
theorem parseLine_eq_none (line : GoString)
    (h : line = [] ∨ line.head? = some '#' ∨ '=' ∉ line) : parseLine line = none := by
  cases hp : parseLine line with
  | none => rfl
  | some p =>
    obtain ⟨k, v⟩ := p
    obtain ⟨h1, h2, h3⟩ := (parseLine_eq_some line k v).mp hp
    rcases h with h | h | h
    · rw [h] at h1; simp at h1
    · exact absurd h h3
    · exact absurd (by rw [h1]; simp) h

/-- One pass of the parsing loop of `saveConfig` stores what the line sets. -/
theorem saveConfigStep_eq (config : GoMap GoString) (line : GoString) :
    saveConfigStep config line
      = match parseLine line with
        | some (k, v) => config.set k v
        | none => config := by
  unfold saveConfigStep parseLine
  cases line with
  | nil => rfl
  | cons c r =>
    dsimp only
    by_cases hc : c ≠ '#'
    · rw [if_pos hc, if_pos hc]
      generalize splitKeyValue (c :: r) = parts
      match parts with
      | [] => rfl
      | [_] => rfl
      | [_, _] => rfl
      | _ :: _ :: _ :: _ => rfl
    · rw [if_neg hc, if_neg hc]

/-! ## saveConfig -/

/-- Lines that do not set `key` leave its entry in the map as it was. -/
theorem saveConfig_fold_skip (key : GoString) (lines : List GoString)
    (config : GoMap GoString)
    (hno : ∀ l ∈ lines, ∀ w, parseLine l ≠ some (key, w)) :
    (lines.foldl saveConfigStep config).get key = config.get key := by
  induction lines generalizing config with
  | nil => rfl
  | cons l rest ih =>
    rw [List.foldl_cons, ih _ (fun l' hl' => hno l' (List.mem_cons_of_mem _ hl'))]
    rw [saveConfigStep_eq]
    cases hp : parseLine l with
    | none => rfl
    | some p =>
      obtain ⟨k, v⟩ := p
      dsimp only
      apply GoMap.get_set_ne
      intro hk
      exact hno l (List.mem_cons_self _ _) v (by rw [hp, hk])

/-- The last line that sets `key` decides its entry in the map. -/
theorem saveConfig_fold_last (key val : GoString) (pre post : List GoString)
    (line : GoString) (config : GoMap GoString)
    (hline : parseLine line = some (key, val))
    (hno : ∀ l ∈ post, ∀ w, parseLine l ≠ some (key, w)) :
    ((pre ++ line :: post).foldl saveConfigStep config).get key = some val := by
  rw [List.foldl_append, List.foldl_cons, saveConfig_fold_skip key post _ hno,
    saveConfigStep_eq, hline]
  exact GoMap.get_set_self _ _ _

/-- Every value the parsing loop of `saveConfig` stores is free of newlines when
the lines are. -/
theorem saveConfig_fold_no_newline (lines : List GoString) (config : GoMap GoString)
    (hlines : ∀ l ∈ lines, '\n' ∉ l)
    (hcfg : ∀ k v, config.get k = some v → '\n' ∉ v) :
    ∀ k v, (lines.foldl saveConfigStep config).get k = some v → '\n' ∉ v := by
  induction lines generalizing config with
  | nil => exact hcfg
  | cons l rest ih =>
    rw [List.foldl_cons]
    apply ih _ (fun l' hl' => hlines l' (List.mem_cons_of_mem _ hl'))
    intro k v hget
    rw [saveConfigStep_eq] at hget
    cases hp : parseLine l with
    | none => rw [hp] at hget; exact hcfg k v hget
    | some p =>
      obtain ⟨k1, v1⟩ := p
      rw [hp] at hget
      dsimp only at hget
      by_cases hk : k = k1
      · rw [hk, GoMap.get_set_self] at hget
        have hv : v1 = v := Option.some.inj hget
        subst hv
        obtain ⟨h1, _, _⟩ := (parseLine_eq_some l k1 v1).mp hp
        have hl := hlines l (List.mem_cons_self _ _)
        intro hmem
        apply hl
        rw [h1]
        simp [hmem]
      · rw [GoMap.get_set_ne _ _ _ _ hk] at hget
        exact hcfg k v hget

/-- Every value `saveConfig` reads back from the file is free of newlines. -/
theorem readConfig_no_newline (file : ReadFile) (k v : GoString)
    (h : (readConfig file).get k = some v) : '\n' ∉ v := by
  cases file with
  | data content =>
    exact saveConfig_fold_no_newline (splitLines content) [] (splitLines_no_newline content)
      (fun _ _ hh => by cases hh) k v h
  | notExist => cases h
  | failed msg => cases h

/-- The text `saveConfig` assembles is the header, the URL line if that key is
present, and the token line if that key is present. -/
theorem renderConfig_eq (config : GoMap GoString) :
    renderConfig config
      = configHeader ++ (configLine "TRUENAS_URL".toList (config.get "TRUENAS_URL".toList)
          ++ configLine "TRUENAS_API_KEY".toList (config.get "TRUENAS_API_KEY".toList)) := by
  unfold renderConfig configLine configHeader
  cases config.get "TRUENAS_URL".toList <;> cases config.get "TRUENAS_API_KEY".toList <;>
    simp only [List.nil_append, List.append_nil, List.append_assoc] <;> rfl

/-- The lines of a text that starts with the header are the two comment lines, an
empty line, and the lines of the rest. -/
theorem splitLines_header (rest : GoString) :
    splitLines (configHeader ++ rest)
      = "# TrueNAS Configuration".toList
        :: "# This file is automatically managed by tnmanage".toList
        :: [] :: splitLines rest := by
  have e : configHeader ++ rest
      = "# TrueNAS Configuration".toList ++ '\n'
        :: ("# This file is automatically managed by tnmanage".toList ++ '\n'
          :: ([] ++ '\n' :: rest)) := rfl
  rw [e, splitLines_line _ _ (by decide), splitLines_line _ _ (by decide),
    splitLines_line _ _ (by decide)]

/-- The lines of a text that starts with the line of a key are that line, if the
key is present, and the lines of the rest. -/
theorem splitLines_configLine (key : GoString) (value : Option GoString) (rest : GoString)
    (hkey : '\n' ∉ key) (hval : ∀ v, value = some v → '\n' ∉ v) :
    splitLines (configLine key value ++ rest) = configLines key value ++ splitLines rest := by
  cases value with
  | none => rfl
  | some v =>
    have hv := hval v rfl
    have e : configLine key (some v) ++ rest = (key ++ "=".toList ++ v) ++ '\n' :: rest := by
      unfold configLine
      simp
    rw [e, splitLines_line _ _ (by simp [hkey, hv])]
    rfl

/-- The lines of the text `saveConfig` assembles, when the two values are free of
newlines. -/
theorem splitLines_renderConfig (config : GoMap GoString)
    (hval : ∀ k v, config.get k = some v → '\n' ∉ v) :
    splitLines (renderConfig config)
      = "# TrueNAS Configuration".toList
        :: "# This file is automatically managed by tnmanage".toList
        :: [] :: (configLines "TRUENAS_URL".toList (config.get "TRUENAS_URL".toList)
          ++ configLines "TRUENAS_API_KEY".toList (config.get "TRUENAS_API_KEY".toList)) := by
  rw [renderConfig_eq, splitLines_header,
    splitLines_configLine _ _ _ (by decide) (hval "TRUENAS_URL".toList)]
  have h2 := splitLines_configLine "TRUENAS_API_KEY".toList
    (config.get "TRUENAS_API_KEY".toList) [] (by decide) (hval "TRUENAS_API_KEY".toList)
  rw [List.append_nil] at h2
  rw [h2, splitLines_nil, List.append_nil]

/-- A line `key=v` of the rewritten file sets `key` to `v`. -/
theorem parseLine_configLine (key v : GoString) (hk : '=' ∉ key)
    (hh : (key ++ "=".toList ++ v).head? ≠ some '#') :
    parseLine (key ++ "=".toList ++ v) = some (key, v) :=
  (parseLine_eq_some _ key v).mpr ⟨by simp, hk, hh⟩

/-- Parsing the text `saveConfig` assembles gives back the two known keys as the
map had them, and no other key. -/
theorem readConfig_renderConfig (config : GoMap GoString)
    (hval : ∀ k v, config.get k = some v → '\n' ∉ v) :
    (readConfig (.data (renderConfig config))).get "TRUENAS_URL".toList
        = config.get "TRUENAS_URL".toList
      ∧ (readConfig (.data (renderConfig config))).get "TRUENAS_API_KEY".toList
        = config.get "TRUENAS_API_KEY".toList
      ∧ (∀ k, k ≠ "TRUENAS_URL".toList → k ≠ "TRUENAS_API_KEY".toList →
          (readConfig (.data (renderConfig config))).get k = none) := by
  have hU : ∀ v, parseLine ("TRUENAS_URL".toList ++ "=".toList ++ v)
      = some ("TRUENAS_URL".toList, v) :=
    fun v => parseLine_configLine _ v (by decide) (by simp)
  have hK : ∀ v, parseLine ("TRUENAS_API_KEY".toList ++ "=".toList ++ v)
      = some ("TRUENAS_API_KEY".toList, v) :=
    fun v => parseLine_configLine _ v (by decide) (by simp)
  have h1 : parseLine "# TrueNAS Configuration".toList = none := by decide
  have h2 : parseLine "# This file is automatically managed by tnmanage".toList = none := by
    decide
  have h3 : parseLine [] = none := rfl
  unfold readConfig
  dsimp only
  rw [splitLines_renderConfig config hval]
  cases hu : config.get "TRUENAS_URL".toList <;>
    cases hk : config.get "TRUENAS_API_KEY".toList <;>
    simp only [configLines, List.foldl_cons, List.foldl_nil, List.nil_append,
      List.cons_append, saveConfigStep_eq, h1, h2, h3, hU, hK] <;>
    refine ⟨?_, ?_, ?_⟩ <;>
    first
      | (intro k hk1 hk2
         simp only [GoMap.set, GoMap.get, if_neg (Ne.symm hk1), if_neg (Ne.symm hk2),
           if_neg (show ¬ "TRUENAS_URL".toList = "TRUENAS_API_KEY".toList by decide)])
      | decide
      | simp [GoMap.set, GoMap.get]

/-- After a newline-free value is stored, every value of the map is free of
newlines. -/
theorem saveConfig_map_no_newline (file : ReadFile) (key v : GoString) (hv : '\n' ∉ v) :
    ∀ k w, ((readConfig file).set key v).get k = some w → '\n' ∉ w := by
  intro k w hget
  by_cases hk : k = key
  · rw [hk, GoMap.get_set_self] at hget
    rw [← Option.some.inj hget]
    exact hv
  · rw [GoMap.get_set_ne _ _ _ _ hk] at hget
    exact readConfig_no_newline file k w hget

/-- The lines of the file `saveConfig` writes for a newline-free value. -/
theorem saveConfig_lines (file : ReadFile) (key v : GoString) (hv : '\n' ∉ v) :
    splitLines (saveConfig file key v)
      = "# TrueNAS Configuration".toList
        :: "# This file is automatically managed by tnmanage".toList
        :: [] :: (configLines "TRUENAS_URL".toList
              (((readConfig file).set key v).get "TRUENAS_URL".toList)
          ++ configLines "TRUENAS_API_KEY".toList
              (((readConfig file).set key v).get "TRUENAS_API_KEY".toList)) :=
  splitLines_renderConfig _ (saveConfig_map_no_newline file key v hv)

/-- A line of `configLines` sets the key it was written for. -/
theorem parseLine_configLines (key : GoString) (value : Option GoString) (line k w : GoString)
    (hk : '=' ∉ key) (hh : key.head? ≠ some '#') (hne : key ≠ [])
    (hmem : line ∈ configLines key value) (hp : parseLine line = some (k, w)) :
    k = key ∧ value = some w := by
  cases value with
  | none => simp [configLines] at hmem
  | some v =>
    simp only [configLines, List.mem_singleton] at hmem
    have h2 : parseLine line = some (key, v) := by
      rw [hmem]
      apply parseLine_configLine _ _ hk
      cases key with
      | nil => exact absurd rfl hne
      | cons c r => simpa using hh
    rw [h2] at hp
    simp only [Option.some.injEq, Prod.mk.injEq] at hp
    exact ⟨hp.1.symm, by rw [hp.2]⟩

/-- The three lines of the header set nothing. -/
theorem header_lines_set_nothing :
    parseLine "# TrueNAS Configuration".toList = none
      ∧ parseLine "# This file is automatically managed by tnmanage".toList = none
      ∧ parseLine [] = none := by
  decide

/-- C8: for every previous state of the configuration file and every value `v`
without a newline saved under a key (`TRUENAS_URL`, `TRUENAS_API_KEY`), the rewritten
file is the fixed header (two comment lines and a blank line), then the line
`TRUENAS_URL=<value>` if that key is present, then the line
`TRUENAS_API_KEY=<value>` if that key is present: the saved key carries `v`,
the other key what the old file gave for it.  No line of the rewritten file
sets a key other than these two, and a key the old file gave several times is
kept with the value of its last line. -/
theorem saveConfig_rewrites (file : ReadFile) (key v : GoString) (hv : '\n' ∉ v) :
    saveConfig file key v
        = configHeader
          ++ configLine "TRUENAS_URL".toList
              (if key = "TRUENAS_URL".toList then some v
                else (readConfig file).get "TRUENAS_URL".toList)
          ++ configLine "TRUENAS_API_KEY".toList
              (if key = "TRUENAS_API_KEY".toList then some v
                else (readConfig file).get "TRUENAS_API_KEY".toList)
      ∧ splitLines (saveConfig file key v)
        = "# TrueNAS Configuration".toList
          :: "# This file is automatically managed by tnmanage".toList
          :: [] :: (configLines "TRUENAS_URL".toList
                (if key = "TRUENAS_URL".toList then some v
                  else (readConfig file).get "TRUENAS_URL".toList)
            ++ configLines "TRUENAS_API_KEY".toList
                (if key = "TRUENAS_API_KEY".toList then some v
                  else (readConfig file).get "TRUENAS_API_KEY".toList))
      ∧ (∀ line ∈ splitLines (saveConfig file key v), ∀ k w,
          parseLine line = some (k, w) →
            k = "TRUENAS_URL".toList ∨ k = "TRUENAS_API_KEY".toList)
      ∧ (∀ content pre line post kk val, file = .data content →
          splitLines content = pre ++ line :: post →
          parseLine line = some (kk, val) →
          (∀ l ∈ post, ∀ w, parseLine l ≠ some (kk, w)) →
          (readConfig file).get kk = some val)
      ∧ (∀ kk, (∀ content, file = .data content →
            ∀ l ∈ splitLines content, ∀ w, parseLine l ≠ some (kk, w)) →
          (readConfig file).get kk = none) := by
  have hgU : ((readConfig file).set key v).get "TRUENAS_URL".toList
      = (if key = "TRUENAS_URL".toList then some v
          else (readConfig file).get "TRUENAS_URL".toList) := by
    by_cases hk : key = "TRUENAS_URL".toList
    · rw [if_pos hk, hk, GoMap.get_set_self]
    · rw [if_neg hk, GoMap.get_set_ne _ _ _ _ (Ne.symm hk)]
  have hgK : ((readConfig file).set key v).get "TRUENAS_API_KEY".toList
      = (if key = "TRUENAS_API_KEY".toList then some v
          else (readConfig file).get "TRUENAS_API_KEY".toList) := by
    by_cases hk : key = "TRUENAS_API_KEY".toList
    · rw [if_pos hk, hk, GoMap.get_set_self]
    · rw [if_neg hk, GoMap.get_set_ne _ _ _ _ (Ne.symm hk)]
  have hlines := saveConfig_lines file key v hv
  rw [hgU, hgK] at hlines
  refine ⟨?_, hlines, ?_, ?_, ?_⟩
  · unfold saveConfig
    dsimp only
    rw [renderConfig_eq, hgU, hgK, List.append_assoc]
  · intro line hmem k w hp
    rw [hlines] at hmem
    simp only [List.mem_cons, List.mem_append] at hmem
    rcases hmem with h | h | h | h | h
    · rw [h, header_lines_set_nothing.1] at hp; cases hp
    · rw [h, header_lines_set_nothing.2.1] at hp; cases hp
    · rw [h, header_lines_set_nothing.2.2] at hp; cases hp
    · exact Or.inl (parseLine_configLines _ _ line k w (by decide) (by decide) (by decide)
        h hp).1
    · exact Or.inr (parseLine_configLines _ _ line k w (by decide) (by decide) (by decide)
        h hp).1
  · intro content pre line post kk val hfile hsplit hline hno
    rw [hfile]
    unfold readConfig
    dsimp only
    rw [hsplit]
    exact saveConfig_fold_last kk val pre post line [] hline hno
  · intro kk hno
    cases file with
    | data content =>
      unfold readConfig
      dsimp only
      rw [saveConfig_fold_skip kk _ [] (hno content rfl)]
      rfl
    | notExist => rfl
    | failed msg => rfl

/-- C8, a concrete run: saving a token over a file edited by hand keeps the last
of the two server URLs and drops everything else. -/
theorem saveConfig_rewrites_witness :
    saveConfig (.data demoFile) "TRUENAS_API_KEY".toList "tok".toList
      = ("# TrueNAS Configuration\n# This file is automatically managed by tnmanage\n\n"
          ++ "TRUENAS_URL=https://new\nTRUENAS_API_KEY=tok\n").toList :=
  (saveConfig_rewrites (.data demoFile) "TRUENAS_API_KEY".toList "tok".toList
    (by decide)).1.trans (by decide)

/-- C7 (as amended): for every previous state of the configuration file and
every value `v` without a newline, saving one of the two keys leaves the other
as it was: parsed again, the rewritten file gives for the other key what the
old file gave, and a line for the other key is in the rewritten file exactly
when the old file gave that key.  Writing a server URL `v` and then a token `t`
gives the header followed by the lines `TRUENAS_URL=v` and `TRUENAS_API_KEY=t`. -/
theorem saveConfig_keeps_other_key (file : ReadFile) (v : GoString) (hv : '\n' ∉ v) :
    (readConfig (.data (saveConfig file "TRUENAS_URL".toList v))).get "TRUENAS_API_KEY".toList
        = (readConfig file).get "TRUENAS_API_KEY".toList
      ∧ (readConfig (.data (saveConfig file "TRUENAS_API_KEY".toList v))).get "TRUENAS_URL".toList
        = (readConfig file).get "TRUENAS_URL".toList
      ∧ ((∃ line ∈ splitLines (saveConfig file "TRUENAS_URL".toList v),
            ∃ w, parseLine line = some ("TRUENAS_API_KEY".toList, w))
          ↔ (readConfig file).get "TRUENAS_API_KEY".toList ≠ none)
      ∧ ((∃ line ∈ splitLines (saveConfig file "TRUENAS_API_KEY".toList v),
            ∃ w, parseLine line = some ("TRUENAS_URL".toList, w))
          ↔ (readConfig file).get "TRUENAS_URL".toList ≠ none)
      ∧ (∀ t, '\n' ∉ t →
          saveConfig (.data (saveConfig file "TRUENAS_URL".toList v)) "TRUENAS_API_KEY".toList t
            = configHeader ++ ("TRUENAS_URL=".toList ++ v ++ "\n".toList)
              ++ ("TRUENAS_API_KEY=".toList ++ t ++ "\n".toList)) := by
  have hne : "TRUENAS_API_KEY".toList ≠ "TRUENAS_URL".toList := by decide
  have rU := readConfig_renderConfig ((readConfig file).set "TRUENAS_URL".toList v)
    (saveConfig_map_no_newline file _ v hv)
  have rK := readConfig_renderConfig ((readConfig file).set "TRUENAS_API_KEY".toList v)
    (saveConfig_map_no_newline file _ v hv)
  have lU := saveConfig_lines file "TRUENAS_URL".toList v hv
  have lK := saveConfig_lines file "TRUENAS_API_KEY".toList v hv
  rw [GoMap.get_set_self, GoMap.get_set_ne _ _ _ _ hne] at lU
  rw [GoMap.get_set_self, GoMap.get_set_ne _ _ _ _ hne.symm] at lK
  have pU : ∀ w, parseLine ("TRUENAS_URL".toList ++ "=".toList ++ w)
      = some ("TRUENAS_URL".toList, w) :=
    fun w => parseLine_configLine _ w (by decide) (by simp)
  have pK : ∀ w, parseLine ("TRUENAS_API_KEY".toList ++ "=".toList ++ w)
      = some ("TRUENAS_API_KEY".toList, w) :=
    fun w => parseLine_configLine _ w (by decide) (by simp)
  refine ⟨?_, ?_, ?_, ?_, ?_⟩
  · exact rU.2.1.trans (GoMap.get_set_ne _ _ _ _ hne)
  · exact rK.1.trans (GoMap.get_set_ne _ _ _ _ hne.symm)
  · constructor
    · rintro ⟨line, hmem, w, hp⟩
      rw [lU] at hmem
      simp only [List.mem_cons, List.mem_append] at hmem
      rcases hmem with h | h | h | h | h
      · rw [h, header_lines_set_nothing.1] at hp; cases hp
      · rw [h, header_lines_set_nothing.2.1] at hp; cases hp
      · rw [h, header_lines_set_nothing.2.2] at hp; cases hp
      · have := (parseLine_configLines _ _ line _ w (by decide) (by decide) (by decide)
          h hp).1
        exact absurd this hne
      · have := (parseLine_configLines _ _ line _ w (by decide) (by decide) (by decide)
          h hp).2
        rw [this]
        exact fun hh => by cases hh
    · intro hsome
      cases hg : (readConfig file).get "TRUENAS_API_KEY".toList with
      | none => exact absurd hg hsome
      | some w =>
        refine ⟨"TRUENAS_API_KEY".toList ++ "=".toList ++ w, ?_, w, pK w⟩
        rw [lU, hg]
        simp [configLines]
  · constructor
    · rintro ⟨line, hmem, w, hp⟩
      rw [lK] at hmem
      simp only [List.mem_cons, List.mem_append] at hmem
      rcases hmem with h | h | h | h | h
      · rw [h, header_lines_set_nothing.1] at hp; cases hp
      · rw [h, header_lines_set_nothing.2.1] at hp; cases hp
      · rw [h, header_lines_set_nothing.2.2] at hp; cases hp
      · have := (parseLine_configLines _ _ line _ w (by decide) (by decide) (by decide)
          h hp).2
        rw [this]
        exact fun hh => by cases hh
      · have := (parseLine_configLines _ _ line _ w (by decide) (by decide) (by decide)
          h hp).1
        exact absurd this hne.symm
    · intro hsome
      cases hg : (readConfig file).get "TRUENAS_URL".toList with
      | none => exact absurd hg hsome
      | some w =>
        refine ⟨"TRUENAS_URL".toList ++ "=".toList ++ w, ?_, w, pU w⟩
        rw [lK, hg]
        simp [configLines]
  · intro t _
    have hgU : (readConfig (.data (saveConfig file "TRUENAS_URL".toList v))).get
        "TRUENAS_URL".toList = some v := rU.1.trans (GoMap.get_set_self _ _ _)
    unfold saveConfig at hgU ⊢
    dsimp only at hgU ⊢
    rw [renderConfig_eq, GoMap.get_set_self, GoMap.get_set_ne _ _ _ _ hne.symm, hgU]
    unfold configLine
    simp only [List.append_assoc]
    rfl

/-- C7, a concrete run: saving a token over a file edited by hand leaves the
server URL at the value the old file gave it. -/
theorem saveConfig_keeps_other_key_witness :
    (readConfig (.data (saveConfig (.data demoFile) "TRUENAS_API_KEY".toList
        "tok".toList))).get "TRUENAS_URL".toList = some "https://new".toList :=
  (saveConfig_keeps_other_key (.data demoFile) "tok".toList (by decide)).2.1.trans (by decide)

/-- C7 as stated fails for a value with a newline: saving such a server URL to a
file without a token yields a file that, parsed again, has a token. -/
theorem saveConfig_newline_counterexample :
    (readConfig .notExist).get "TRUENAS_API_KEY".toList = none
      ∧ (readConfig (.data (saveConfig .notExist "TRUENAS_URL".toList
            "x\nTRUENAS_API_KEY=evil".toList))).get "TRUENAS_API_KEY".toList
          = some "evil".toList
      ∧ (readConfig (.data (saveConfig (.data "TRUENAS_URL=u\n".toList)
            "TRUENAS_API_KEY".toList "k\nTRUENAS_URL=evil".toList))).get "TRUENAS_URL".toList
          = some "evil".toList := by
  decide

/-! ## LoadConfig -/

/-- One pass of the loop of `LoadConfig` sets what the line gives, and only for
a variable that reads as empty. -/
theorem loadConfigStep_eq (env : Env) (line : GoString) :
    loadConfigStep env line
      = match parseLine line with
        | some (k, v) => if Getenv env k = [] then Setenv env k v else env
        | none => env := by
  unfold loadConfigStep parseLine
  cases line with
  | nil => rfl
  | cons c r =>
    dsimp only
    by_cases hc : c ≠ '#'
    · rw [if_pos hc, if_pos hc]
      generalize splitKeyValue (c :: r) = parts
      match parts with
      | [] => rfl
      | [_] => rfl
      | [_, _] => rfl
      | _ :: _ :: _ :: _ => rfl
    · rw [if_neg hc, if_neg hc]

/-- The library call `os.Setenv` changes no variable but the one it names. -/
theorem Setenv_other (env : Env) (key value k : GoString) (hk : k ≠ key) :
    Setenv env key value k = env k := by
  unfold Setenv
  split
  · rfl
  · exact if_neg hk

/-- The library call `os.Setenv` leaves the variable it names as it was or gives
it the value passed. -/
theorem Setenv_self (env : Env) (key value : GoString) :
    Setenv env key value key = env key ∨ Setenv env key value key = some value := by
  unfold Setenv
  split
  · exact Or.inl rfl
  · exact Or.inr (if_pos rfl)

/-- One pass of the loop keeps a variable that has a non-empty value. -/
theorem loadConfigStep_keeps (env : Env) (line k v : GoString)
    (hk : env k = some v) (hv : v ≠ []) : loadConfigStep env line k = some v := by
  rw [loadConfigStep_eq]
  cases hp : parseLine line with
  | none => exact hk
  | some p =>
    obtain ⟨k1, v1⟩ := p
    dsimp only
    by_cases hg : Getenv env k1 = []
    · rw [if_pos hg]
      have hne : k ≠ k1 := by
        intro h
        rw [← h] at hg
        unfold Getenv at hg
        rw [hk] at hg
        exact hv hg
      rw [Setenv_other env k1 v1 k hne]
      exact hk
    · rw [if_neg hg]
      exact hk

/-- The loop of `LoadConfig` keeps a variable that has a non-empty value. -/
theorem loadConfig_fold_keeps (lines : List GoString) (env : Env) (k v : GoString)
    (hk : env k = some v) (hv : v ≠ []) : (lines.foldl loadConfigStep env) k = some v := by
  induction lines generalizing env with
  | nil => exact hk
  | cons l rest ih =>
    rw [List.foldl_cons]
    exact ih _ (loadConfigStep_keeps env l k v hk hv)

/-- A variable whose value the loop of `LoadConfig` changed was set from one of
the lines. -/
theorem loadConfig_fold_origin (lines : List GoString) (env : Env) (k : GoString) :
    (lines.foldl loadConfigStep env) k = env k
      ∨ ∃ line ∈ lines, ∃ val, parseLine line = some (k, val)
          ∧ (lines.foldl loadConfigStep env) k = some val := by
  induction lines generalizing env with
  | nil => exact Or.inl rfl
  | cons l rest ih =>
    rw [List.foldl_cons]
    rcases ih (loadConfigStep env l) with h | ⟨line, hmem, val, hp, hval⟩
    · rw [h, loadConfigStep_eq]
      cases hp : parseLine l with
      | none => exact Or.inl rfl
      | some p =>
        obtain ⟨k1, v1⟩ := p
        dsimp only
        by_cases hg : Getenv env k1 = []
        · rw [if_pos hg]
          by_cases hk : k = k1
          · rw [hk]
            rcases Setenv_self env k1 v1 with hs | hs
            · exact Or.inl hs
            · exact Or.inr ⟨l, List.mem_cons_self _ _, v1, hp, hs⟩
          · exact Or.inl (Setenv_other env k1 v1 k hk)
        · rw [if_neg hg]
          exact Or.inl rfl
    · exact Or.inr ⟨line, List.mem_cons_of_mem _ hmem, val, hp, hval⟩

/-- Lines that set nothing can be left out of the loop of `LoadConfig`. -/
theorem loadConfig_fold_filter (lines : List GoString) (env : Env) :
    lines.foldl loadConfigStep env
      = (lines.filter (fun l => (parseLine l).isSome)).foldl loadConfigStep env := by
  induction lines generalizing env with
  | nil => rfl
  | cons l rest ih =>
    rw [List.foldl_cons, List.filter_cons]
    cases hp : parseLine l with
    | none =>
      have hstep : loadConfigStep env l = env := by rw [loadConfigStep_eq, hp]
      rw [hstep, ih env]
      rfl
    | some p =>
      rw [ih (loadConfigStep env l)]
      rfl

/-- C10: `LoadConfig` leaves every environment variable that already has a
non-empty value as it is; an empty line, a line that starts with `#` and a line
without `=` set nothing, so the outcome is that of the remaining lines alone;
and a variable whose value it changes gets the value from a line of the file
that reads `key=value`, cut at its first `=`, the value being all that follows. -/
theorem LoadConfig_respects_env (file : ReadFile) (env : Env) :
    (∀ k v, env k = some v → v ≠ [] → (LoadConfig file env).2 k = some v)
      ∧ (∀ env1 line, (line = [] ∨ line.head? = some '#' ∨ '=' ∉ line) →
          loadConfigStep env1 line = env1)
      ∧ (∀ content, (LoadConfig (.data content) env).2
          = ((splitLines content).filter (fun l => (parseLine l).isSome)).foldl
              loadConfigStep env)
      ∧ (∀ k, (LoadConfig file env).2 k ≠ env k →
          ∃ content line val, file = .data content ∧ line ∈ splitLines content
            ∧ line = k ++ '=' :: val ∧ '=' ∉ k ∧ line.head? ≠ some '#'
            ∧ Getenv env k = []
            ∧ (LoadConfig file env).2 k = some val) := by
  have hkeep : ∀ k v, env k = some v → v ≠ [] → (LoadConfig file env).2 k = some v := by
    intro k v hk hv
    cases file with
    | data content => exact loadConfig_fold_keeps (splitLines content) env k v hk hv
    | notExist => exact hk
    | failed msg => exact hk
  refine ⟨hkeep, ?_, ?_, ?_⟩
  · intro env1 line hline
    rw [loadConfigStep_eq, parseLine_eq_none line hline]
  · intro content
    exact loadConfig_fold_filter (splitLines content) env
  · intro k hchg
    have hempty : Getenv env k = [] := by
      by_contra hne
      apply hchg
      cases hk : env k with
      | none => unfold Getenv at hne; rw [hk] at hne; exact absurd rfl hne
      | some v =>
        have hv : v ≠ [] := by
          intro h; apply hne; unfold Getenv; rw [hk, h]; rfl
        exact hkeep k v hk hv
    cases file with
    | data content =>
      rcases loadConfig_fold_origin (splitLines content) env k with h | ⟨line, hmem, val, hp, hv⟩
      · exact absurd h hchg
      · obtain ⟨h1, h2, h3⟩ := (parseLine_eq_some line k val).mp hp
        exact ⟨content, line, val, rfl, hmem, h1, h2, h3, hempty, hv⟩
    | notExist => exact absurd rfl hchg
    | failed msg => exact absurd rfl hchg

/-- C10, a concrete run: with the server URL set in the environment and the
token unset, the file leaves the URL alone and gives the token, cut at the
first `=` of its line. -/
theorem LoadConfig_respects_env_witness :
    (LoadConfig (.data "# c\n\nTRUENAS_URL=https://file\nnoise\nTRUENAS_API_KEY=a=b\n".toList)
        (fun k => if k = "TRUENAS_URL".toList then some "https://env".toList else none)).2
        "TRUENAS_URL".toList = some "https://env".toList
      ∧ (LoadConfig (.data "# c\n\nTRUENAS_URL=https://file\nnoise\nTRUENAS_API_KEY=a=b\n".toList)
        (fun k => if k = "TRUENAS_URL".toList then some "https://env".toList else none)).2
        "TRUENAS_API_KEY".toList = some "a=b".toList :=
  ⟨(LoadConfig_respects_env
      (.data "# c\n\nTRUENAS_URL=https://file\nnoise\nTRUENAS_API_KEY=a=b\n".toList)
      (fun k => if k = "TRUENAS_URL".toList then some "https://env".toList else none)).1
      "TRUENAS_URL".toList "https://env".toList (by decide) (by decide),
   by decide⟩

/-! ## formatBytes -/

/-- A number below `2^b` has at most `b` binary digits. -/
theorem bitLength_le (fuel a b : Nat) (h : a < 2 ^ b) : bitLength fuel a ≤ b := by
  induction fuel generalizing a b with
  | zero => exact Nat.zero_le _
  | succ f ih =>
    unfold bitLength
    by_cases ha : a = 0
    · rw [if_pos ha]; exact Nat.zero_le _
    · rw [if_neg ha]
      cases b with
      | zero => simp at h; exact absurd h ha
      | succ b' =>
        have h2 : a / 2 < 2 ^ b' := by
          rw [pow_succ] at h
          omega
        have := ih (a / 2) b' h2
        omega

/-- An integer from `0` to `2^53` is a double: the conversion keeps it. -/
theorem Float64.ofInt64_exact (n : Int) (h0 : 0 ≤ n) (h1 : n < 2 ^ 53) :
    Float64.ofInt64 n = { num := n, den := 1 } := by
  have ha : n.natAbs < 2 ^ 53 := by omega
  have hsh : bitLength 64 n.natAbs - 53 = 0 := by
    have := bitLength_le 64 n.natAbs 53 ha
    omega
  unfold Float64.ofInt64
  simp only [hsh, pow_zero, Nat.div_one, Nat.mod_one, Nat.mul_zero, Nat.mul_one]
  have hc : ¬ (0 > 1 ∨ (0 = 1 ∧ n.natAbs % 2 = 1)) := by omega
  rw [if_neg hc, if_neg (by omega)]
  congr 1
  omega

/-- The loop of `formatBytes` run on `m` with `1024^j <= m < 1024^(j+1)` ends
after `j` passes, with `div` multiplied by `1024^j` and `exp` raised by `j`. -/
theorem formatBytesLoop_spec (j fuel : Nat) (m d : Int) (e : Nat) (hfuel : j < fuel)
    (hm1 : (1024 : Int) ^ j ≤ m) (hm2 : m < 1024 ^ (j + 1)) (hd0 : 0 ≤ d)
    (hd : d * 1024 ^ j < 2 ^ 63) :
    formatBytesLoop fuel m d e = some (d * 1024 ^ j, e + j) := by
  induction j generalizing fuel m d e with
  | zero =>
    cases fuel with
    | zero => omega
    | succ f =>
      unfold formatBytesLoop
      have hlt : ¬ m ≥ 1024 := by simpa using hm2
      rw [if_neg hlt]
      simp
  | succ j ih =>
    cases fuel with
    | zero => omega
    | succ f =>
      unfold formatBytesLoop
      have hp : (1 : Int) ≤ 1024 ^ j := one_le_pow₀ (by norm_num)
      have hge : m ≥ 1024 := by
        have : (1024 : Int) ^ (j + 1) = 1024 ^ j * 1024 := pow_succ _ _
        nlinarith
      rw [if_pos hge]
      have hd1 : d * 1024 ≤ d * 1024 ^ (j + 1) := by
        have : (1024 : Int) ^ (j + 1) = 1024 ^ j * 1024 := pow_succ _ _
        nlinarith
      have hmul : mulInt64 d 1024 = d * 1024 :=
        wrapInt64_id _ (by omega) (by omega)
      have h1 : (1024 : Int) ^ j ≤ m / 1024 := by
        apply Int.le_ediv_of_mul_le (by norm_num)
        rw [← pow_succ]
        exact hm1
      have h2 : m / 1024 < 1024 ^ (j + 1) := by
        apply Int.ediv_lt_of_lt_mul (by norm_num)
        rw [← pow_succ]
        exact hm2
      have h3 : d * 1024 * 1024 ^ j < 2 ^ 63 := by
        have : d * 1024 * 1024 ^ j = d * 1024 ^ (j + 1) := by rw [pow_succ]; ring
        rw [this]
        exact hd
      rw [hmul, ih f (m / 1024) (d * 1024) (e + 1) (by omega) h1 h2 (by omega) h3]
      congr 2
      · rw [pow_succ]; ring
      · omega

/-- The double of every divisor `formatBytes` can reach is the divisor itself. -/
theorem Float64.ofInt64_pow1024 :
    Float64.ofInt64 (1024 ^ 1) = { num := 1024 ^ 1, den := 1 }
      ∧ Float64.ofInt64 (1024 ^ 2) = { num := 1024 ^ 2, den := 1 }
      ∧ Float64.ofInt64 (1024 ^ 3) = { num := 1024 ^ 3, den := 1 }
      ∧ Float64.ofInt64 (1024 ^ 4) = { num := 1024 ^ 4, den := 1 }
      ∧ Float64.ofInt64 (1024 ^ 5) = { num := 1024 ^ 5, den := 1 }
      ∧ Float64.ofInt64 (1024 ^ 6) = { num := 1024 ^ 6, den := 1 } := by
  decide

/-- The text `formatBytes` returns once its loop has ended with the divisor `d`
and the index `e`. -/
theorem formatBytes_of_loop (n d : Int) (e : Nat) (c : Char) (h : ¬ n < 1024)
    (hl : formatBytesLoop 64 (n / 1024) 1024 0 = some (d, e))
    (hc : "KMGTPE".toList[e]? = some c)
    (hd : Float64.ofInt64 d = { num := d, den := 1 }) (hpos : 0 < d) :
    formatBytes n
      = some (oneDecimal (Float64.ofInt64 n).num d.natAbs ++ " ".toList ++ [c]
          ++ "iB".toList) := by
  unfold formatBytes
  rw [if_neg h, hl]
  dsimp only
  rw [hc]
  dsimp only
  rw [hd]
  unfold sprintfF1 Float64.div
  dsimp only
  have hden : (Float64.ofInt64 n).den = 1 := rfl
  rw [hden, Int.sign_eq_one_of_pos hpos, Nat.cast_one, mul_one, mul_one, one_mul]

/-- At most one power of 1024 brackets a number. -/
theorem formatBytes_exponent_unique (n : Int) (j k : Nat)
    (hj1 : (1024 : Int) ^ j ≤ n) (hj2 : n < 1024 ^ (j + 1))
    (hk1 : (1024 : Int) ^ k ≤ n) (hk2 : n < 1024 ^ (k + 1)) : j = k := by
  by_contra hne
  rcases Nat.lt_or_gt_of_ne hne with h | h
  · have : (1024 : Int) ^ (j + 1) ≤ 1024 ^ k := pow_le_pow_right₀ (by norm_num) h
    linarith
  · have : (1024 : Int) ^ (k + 1) ≤ 1024 ^ j := pow_le_pow_right₀ (by norm_num) h
    linarith

/-- The run of `formatBytes` on a size between `1024^k` and `1024^(k+1)`, `k`
from 1 to 6: the loop ends with `div = 1024^k` and `exp = k - 1`, and the text is
the double of the size divided by `1024^k`, with the letter at index `k - 1`. -/
theorem formatBytes_range (n : Int) (k : Nat) (c : Char) (hk1 : 1 ≤ k)
    (hc : "KMGTPE".toList[k - 1]? = some c)
    (hd : Float64.ofInt64 (1024 ^ k) = { num := 1024 ^ k, den := 1 })
    (h1 : (1024 : Int) ^ k ≤ n) (hhi : n < 2 ^ 63) (h2 : n < 1024 ^ (k + 1)) :
    formatBytesLoop 64 (n / 1024) 1024 0 = some (1024 ^ k, k - 1)
      ∧ formatBytes n
        = some (oneDecimal (Float64.ofInt64 n).num (1024 ^ k) ++ " ".toList ++ [c]
            ++ "iB".toList) := by
  obtain ⟨j, rfl⟩ : ∃ j, k = j + 1 := ⟨k - 1, by omega⟩
  have hp : (1 : Int) ≤ 1024 ^ j := one_le_pow₀ (by norm_num)
  have hs : (1024 : Int) ^ (j + 1) = 1024 ^ j * 1024 := pow_succ _ _
  have hj : j < 64 := by
    by_contra hge
    have : (1024 : Int) ^ 64 ≤ 1024 ^ j := pow_le_pow_right₀ (by norm_num) (by omega)
    have h64 : (2 : Int) ^ 63 < 1024 ^ 64 := by norm_num
    linarith
  have hn : ¬ n < 1024 := by nlinarith
  have hm1 : (1024 : Int) ^ j ≤ n / 1024 := by
    apply Int.le_ediv_of_mul_le (by norm_num)
    rw [← pow_succ]
    exact h1
  have hm2 : n / 1024 < 1024 ^ (j + 1) := by
    apply Int.ediv_lt_of_lt_mul (by norm_num)
    rw [← pow_succ]
    exact h2
  have hd63 : (1024 : Int) * 1024 ^ j < 2 ^ 63 := by linarith
  have hloop : formatBytesLoop 64 (n / 1024) 1024 0 = some (1024 ^ (j + 1), j + 1 - 1) := by
    rw [formatBytesLoop_spec j 64 (n / 1024) 1024 0 hj hm1 hm2 (by norm_num) hd63]
    congr 2
    · rw [hs]; ring
    · omega
  refine ⟨hloop, ?_⟩
  have hpos : (0 : Int) < 1024 ^ (j + 1) := by positivity
  have hnat : ((1024 : Int) ^ (j + 1)).natAbs = 1024 ^ (j + 1) := by
    rw [Int.natAbs_pow]
    rfl
  rw [formatBytes_of_loop n _ _ c hn hloop hc hd hpos, hnat]

/-- C11 (as amended): for every `int64` `n`, `formatBytes n` returns a text (the
loop ends and the lookup in `KMGTPE` is in range).  Below 1024 the text is the
decimal `n` followed by ` B`.  From 1024 on there is exactly one `k` with
`1024^k <= n < 1024^(k+1)`, it lies in 1..6, the loop ends with `div = 1024^k`
and the index `k - 1`, and the text is the double nearest to `n` divided by
`1024^k`, written with one decimal place (nearest tenth, ties to even), then a
space, the `k`-th letter of `KMGTPE` and `iB`.  Below `2^53` the double is `n`
itself and the text is the one the specification words. -/
theorem formatBytes_spec (n : Int) (hhi : n < 2 ^ 63) :
    (n < 1024 → formatBytes n = some ((toString n).toList ++ " B".toList))
      ∧ (1024 ≤ n → ∃ k c, 1 ≤ k ∧ k ≤ 6 ∧ (1024 : Int) ^ k ≤ n ∧ n < 1024 ^ (k + 1)
          ∧ (∀ j : Nat, (1024 : Int) ^ j ≤ n → n < 1024 ^ (j + 1) → j = k)
          ∧ formatBytesLoop 64 (n / 1024) 1024 0 = some (1024 ^ k, k - 1)
          ∧ "KMGTPE".toList[k - 1]? = some c
          ∧ formatBytes n
            = some (oneDecimal (Float64.ofInt64 n).num (1024 ^ k) ++ " ".toList ++ [c]
                ++ "iB".toList)
          ∧ (n < 2 ^ 53 → formatBytes n = specFormat n k)) := by
  refine ⟨fun h => ?_, fun h => ?_⟩
  · unfold formatBytes
    rw [if_pos h]
  · have key : ∀ (k : Nat) (c : Char), 1 ≤ k → k ≤ 6 → "KMGTPE".toList[k - 1]? = some c →
        Float64.ofInt64 (1024 ^ k) = { num := 1024 ^ k, den := 1 } →
        (1024 : Int) ^ k ≤ n → n < 1024 ^ (k + 1) →
        ∃ k c, 1 ≤ k ∧ k ≤ 6 ∧ (1024 : Int) ^ k ≤ n ∧ n < 1024 ^ (k + 1)
          ∧ (∀ j : Nat, (1024 : Int) ^ j ≤ n → n < 1024 ^ (j + 1) → j = k)
          ∧ formatBytesLoop 64 (n / 1024) 1024 0 = some (1024 ^ k, k - 1)
          ∧ "KMGTPE".toList[k - 1]? = some c
          ∧ formatBytes n
            = some (oneDecimal (Float64.ofInt64 n).num (1024 ^ k) ++ " ".toList ++ [c]
                ++ "iB".toList)
          ∧ (n < 2 ^ 53 → formatBytes n = specFormat n k) := by
      intro k c hk1 hk6 hc hd h1 h2
      obtain ⟨hloop, hfmt⟩ := formatBytes_range n k c hk1 hc hd h1 hhi h2
      refine ⟨k, c, hk1, hk6, h1, h2, ?_, hloop, hc, hfmt, ?_⟩
      · intro j hj1 hj2
        exact formatBytes_exponent_unique n j k hj1 hj2 h1 h2
      · intro h53
        rw [hfmt, Float64.ofInt64_exact n (by omega) h53]
        unfold specFormat
        rw [hc]
    have hp := Float64.ofInt64_pow1024
    by_cases c2 : n < 1024 ^ 2
    · exact key 1 'K' (by decide) (by decide) rfl hp.1 (by omega) c2
    by_cases c3 : n < 1024 ^ 3
    · exact key 2 'M' (by decide) (by decide) rfl hp.2.1 (by omega) c3
    by_cases c4 : n < 1024 ^ 4
    · exact key 3 'G' (by decide) (by decide) rfl hp.2.2.1 (by omega) c4
    by_cases c5 : n < 1024 ^ 5
    · exact key 4 'T' (by decide) (by decide) rfl hp.2.2.2.1 (by omega) c5
    by_cases c6 : n < 1024 ^ 6
    · exact key 5 'P' (by decide) (by decide) rfl hp.2.2.2.2.1 (by omega) c6
    · exact key 6 'E' (by decide) (by decide) rfl hp.2.2.2.2.2 (by omega) (by omega)

/-- C11, concrete runs: the three examples of the specification. -/
theorem formatBytes_spec_witness :
    formatBytes 0 = some "0 B".toList
      ∧ formatBytes 1536 = some "1.5 KiB".toList
      ∧ formatBytes 1073741824 = some "1.0 GiB".toList :=
  ⟨((formatBytes_spec 0 (by decide)).1 (by decide)).trans (by decide), by decide, by decide⟩

set_option maxRecDepth 4000 in
/-- C11, a counterexample to the wording "n divided by 1024^k": the size
`9063494250083123` lies between `1024^5` and `1024^6` and divided by `1024^5` it
is below `8.05`, so with one decimal place it reads `8.0`; the conversion to a
double gives `9063494250083124`, which is above `8.05 * 1024^5`, and
`formatBytes` returns `8.1 PiB`. -/
theorem formatBytes_float_counterexample :
    (1024 : Int) ^ 5 ≤ 9063494250083123 ∧ (9063494250083123 : Int) < 1024 ^ 6
      ∧ (100 : Int) * 9063494250083123 < 805 * 1024 ^ 5
      ∧ specFormat 9063494250083123 5 = some "8.0 PiB".toList
      ∧ Float64.ofInt64 9063494250083123 = { num := 9063494250083124, den := 1 }
      ∧ formatBytes 9063494250083123 = some "8.1 PiB".toList := by
  decide

end TNManage
